import Mathlib

/-!
Verification of the MomentOfFluid geometry kernel (src/include/MoFI.H).

The kernel works on 3-D vectors with real (floating point) components; we
embed it over the rationals so that all arithmetic is exact and executable.
The three operations are translated directly from the source:

* `decomposeCell`   (MoFI.H lines 41-125)
* `getVolumeAndCentre` (MoFI.H lines 129-163)
* `splitAndDecompose`  (MoFI.H lines 176-374)

External collaborators (the OpenFOAM vector class, `face::centre`,
`face::nextLabel`, mesh connectivity access) are modelled per the interface
contract stated in the design document, section 6.
-/

/-- A 3-component vector with rational coordinates, modelling the OpenFOAM
`vector` (a triple of scalars). -/
structure Vec3 where
  x : ℚ
  y : ℚ
  z : ℚ
deriving DecidableEq, Repr

namespace Vec3

instance : Zero Vec3 := ⟨⟨0, 0, 0⟩⟩
instance : Add Vec3 := ⟨fun a b => ⟨a.x + b.x, a.y + b.y, a.z + b.z⟩⟩
instance : Neg Vec3 := ⟨fun a => ⟨-a.x, -a.y, -a.z⟩⟩
instance : Sub Vec3 := ⟨fun a b => ⟨a.x - b.x, a.y - b.y, a.z - b.z⟩⟩
instance : SMul ℚ Vec3 := ⟨fun c a => ⟨c * a.x, c * a.y, c * a.z⟩⟩

@[simp] theorem zero_x : (0 : Vec3).x = 0 := rfl
@[simp] theorem zero_y : (0 : Vec3).y = 0 := rfl
@[simp] theorem zero_z : (0 : Vec3).z = 0 := rfl
@[simp] theorem add_x (a b : Vec3) : (a + b).x = a.x + b.x := rfl
@[simp] theorem add_y (a b : Vec3) : (a + b).y = a.y + b.y := rfl
@[simp] theorem add_z (a b : Vec3) : (a + b).z = a.z + b.z := rfl
@[simp] theorem neg_x (a : Vec3) : (-a).x = -a.x := rfl
@[simp] theorem neg_y (a : Vec3) : (-a).y = -a.y := rfl
@[simp] theorem neg_z (a : Vec3) : (-a).z = -a.z := rfl
@[simp] theorem sub_x (a b : Vec3) : (a - b).x = a.x - b.x := rfl
@[simp] theorem sub_y (a b : Vec3) : (a - b).y = a.y - b.y := rfl
@[simp] theorem sub_z (a b : Vec3) : (a - b).z = a.z - b.z := rfl
@[simp] theorem smul_x (c : ℚ) (a : Vec3) : (c • a).x = c * a.x := rfl
@[simp] theorem smul_y (c : ℚ) (a : Vec3) : (c • a).y = c * a.y := rfl
@[simp] theorem smul_z (c : ℚ) (a : Vec3) : (c • a).z = c * a.z := rfl

@[ext] theorem ext {a b : Vec3} (hx : a.x = b.x) (hy : a.y = b.y)
    (hz : a.z = b.z) : a = b := by
  cases a; cases b; simp_all

instance : AddCommGroup Vec3 where
  add_assoc a b c := by ext <;> simp <;> ring
  zero_add a := by ext <;> simp
  add_zero a := by ext <;> simp
  add_comm a b := by ext <;> simp <;> ring
  neg_add_cancel a := by ext <;> simp
  sub a b := a - b
  sub_eq_add_neg a b := by ext <;> simp <;> ring
  nsmul n a := (n : ℚ) • a
  nsmul_zero a := by ext <;> simp
  nsmul_succ n a := by ext <;> simp <;> ring
  zsmul n a := (n : ℚ) • a
  zsmul_zero' a := by ext <;> simp
  zsmul_succ' n a := by ext <;> simp <;> ring
  zsmul_neg' n a := by ext <;> simp <;> ring

instance : Module ℚ Vec3 where
  one_smul a := by ext <;> simp
  mul_smul c d a := by ext <;> simp <;> ring
  smul_zero c := by ext <;> simp
  smul_add c a b := by ext <;> simp <;> ring
  add_smul c d a := by ext <;> simp <;> ring
  zero_smul a := by ext <;> simp

end Vec3

/-- Dot product, the OpenFOAM operator `&` on vectors. -/
def dot (a b : Vec3) : ℚ := a.x * b.x + a.y * b.y + a.z * b.z

/-- Cross product, the OpenFOAM operator `^` on vectors. -/
def cross (a b : Vec3) : Vec3 :=
  ⟨a.y * b.z - a.z * b.y, a.z * b.x - a.x * b.z, a.x * b.y - a.y * b.x⟩

/-- A tetrahedron: four ordered vertices, `t[0] .. t[3]` in the source. -/
abbrev Tetrahedron := Fin 4 → Vec3

/-- Signed volume of a tetrahedron: the argument of `Foam::mag` in
`getVolumeAndCentre` (MoFI.H lines 144-153). -/
def sv (t : Tetrahedron) : ℚ :=
  (1 / 6) * dot (cross (t 1 - t 0) (t 2 - t 0)) (t 3 - t 0)

/-- Unsigned tetrahedron volume `tV` as computed inside `getVolumeAndCentre`
(MoFI.H lines 144-153): magnitude of the signed volume. -/
def tetVol (t : Tetrahedron) : ℚ := |sv t|

/-- Per-tet centroid `tC` (MoFI.H line 156). -/
def tetCentroid (t : Tetrahedron) : Vec3 := (1 / 4 : ℚ) • (t 0 + t 1 + t 2 + t 3)

/-- OpenFOAM `VSMALL`, the tiny positive floor added to the volume before the
final division in `getVolumeAndCentre` (MoFI.H line 162); `1.0e-300` for
double-precision scalars. -/
def VSMALL : ℚ := 1 / 10 ^ 300

/-- Translation of `getVolumeAndCentre` (MoFI.H lines 129-163): a loop
accumulating unsigned tet volume and volume-weighted centroid, then the final
division `centre /= volume + VSMALL`. -/
def getVolumeAndCentre (tets : List Tetrahedron) : ℚ × Vec3 :=
  let acc := tets.foldl
    (fun (a : ℚ × Vec3) t => (a.1 + tetVol t, a.2 + tetVol t • tetCentroid t))
    ((0 : ℚ), (0 : Vec3))
  (acc.1, (acc.1 + VSMALL)⁻¹ • acc.2)

/-- A clipping half-space: pair of plane normal and offset; `clipPlane.first()`
and `clipPlane.second()` in the source.  Encodes the region with
`dot x n - d` non-positive. -/
abbrev hPlane := Vec3 × ℚ

/-- Signed distances `C[i] = (tetra[i] & clipPlane.first()) - clipPlane.second()`
(MoFI.H line 193). -/
def planeDists (clipPlane : hPlane) (tetra : Tetrahedron) : Fin 4 → ℚ :=
  fun i => dot (tetra i) clipPlane.1 - clipPlane.2

/-- Indices classified positive (`C[i] > 0`), in increasing slot order, as
built by the classification loop (MoFI.H lines 190-208). -/
def posList (clipPlane : hPlane) (tetra : Tetrahedron) : List (Fin 4) :=
  (List.finRange 4).filter fun i => 0 < planeDists clipPlane tetra i

/-- Indices classified negative (`C[i] < 0`), in increasing slot order. -/
def negList (clipPlane : hPlane) (tetra : Tetrahedron) : List (Fin 4) :=
  (List.finRange 4).filter fun i => planeDists clipPlane tetra i < 0

/-- Indices classified on-plane: the final `else` branch of the classification
loop, i.e. neither `C[i] > 0` nor `C[i] < 0`, which on a linear order means
`C[i] = 0`. -/
def zeroList (clipPlane : hPlane) (tetra : Tetrahedron) : List (Fin 4) :=
  (List.finRange 4).filter fun i => planeDists clipPlane tetra i = 0

/-- The barycentric weight `w0 = -C[neg] * invCDiff` used at every
intersection site of `splitAndDecompose`. -/
def w0 (C : Fin 4 → ℚ) (p n : Fin 4) : ℚ := -C n * (C p - C n)⁻¹

/-- The barycentric weight `w1 = +C[pos] * invCDiff`. -/
def w1 (C : Fin 4 → ℚ) (p n : Fin 4) : ℚ := C p * (C p - C n)⁻¹

/-- An edge-plane intersection point `w0 * tetra[pos] + w1 * tetra[neg]`,
the expression computed at each of the intersection sites of
`splitAndDecompose`. -/
def intPoint (C : Fin 4 → ℚ) (tetra : Tetrahedron) (p n : Fin 4) : Vec3 :=
  w0 C p n • tetra p + w1 C p n • tetra n

/-- Translation of `splitAndDecompose` (MoFI.H lines 176-374).  The source
classifies the four vertices by strict comparison of `C[i]` with zero, early
exits when one side is empty, and otherwise dispatches on `(nPos, nNeg)`;
since the three index lists partition the four slots, the six cases are
matched here by the exact list shapes.  In-place vertex updates
(`tetra[pos[i]] = ...`) become `Function.update` on a copy, performed
sequentially exactly as the source loops do.  The fall-through branch is
unreachable because the lists partition the four slots. -/
def splitAndDecompose (clipPlane : hPlane) (tet : Tetrahedron)
    (decompTets : List Tetrahedron) : List Tetrahedron :=
  let tetra := tet
  let C := planeDists clipPlane tetra
  let pos := posList clipPlane tetra
  let neg := negList clipPlane tetra
  let zero := zeroList clipPlane tetra
  if neg.length = 0 then
    decompTets
  else if pos.length = 0 then
    decompTets ++ [tetra]
  else
    match pos, neg, zero with
    | [p0, p1, p2], [n0], [] =>
      -- +++-
      let t1 := Function.update tetra p0 (intPoint C tetra p0 n0)
      let t2 := Function.update t1 p1 (intPoint C t1 p1 n0)
      let t3 := Function.update t2 p2 (intPoint C t2 p2 n0)
      decompTets ++ [t3]
    | [p0, p1], [n0, n1], [] =>
      -- ++--
      let intp0 := intPoint C tetra p0 n0
      let intp1 := intPoint C tetra p1 n0
      let intp2 := intPoint C tetra p0 n1
      let intp3 := intPoint C tetra p1 n1
      let t1 := Function.update (Function.update tetra p0 intp2) p1 intp1
      decompTets ++
        [t1, ![t1 n1, intp3, intp2, intp1], ![t1 n0, intp0, intp1, intp2]]
    | [p0, p1], [n0], [z0] =>
      -- ++-0
      let t1 := Function.update tetra p0 (intPoint C tetra p0 n0)
      let t2 := Function.update t1 p1 (intPoint C t1 p1 n0)
      decompTets ++ [t2]
    | [p0], [n0, n1, n2], [] =>
      -- +---
      let intp0 := intPoint C tetra p0 n0
      let intp1 := intPoint C tetra p0 n1
      let intp2 := intPoint C tetra p0 n2
      let t1 := Function.update tetra p0 intp0
      decompTets ++
        [t1, ![intp0, t1 n1, t1 n2, intp1], ![t1 n2, intp1, intp2, intp0]]
    | [p0], [n0, n1], [z0] =>
      -- +--0
      let intp0 := intPoint C tetra p0 n0
      let intp1 := intPoint C tetra p0 n1
      let t1 := Function.update tetra p0 intp0
      decompTets ++ [t1, ![intp1, t1 z0, t1 n1, intp0]]
    | [p0], [n0], [z0, z1] =>
      -- +-00
      decompTets ++ [Function.update tetra p0 (intPoint C tetra p0 n0)]
    | _, _, _ => decompTets

/-- The mesh view consumed by `decomposeCell`: faces are ordered vertex-index
lists, cells are face-index lists (design document, sections 3 and 6). -/
structure polyMesh where
  faces : List (List Nat)
  cells : List (List Nat)

/-- Point coordinates, indexed by vertex label. -/
abbrev pointField := Nat → Vec3

/-- Modelled from the spec: the external collaborator `face::centre(points)`,
which is not part of this repository; section 6 of the design document states
it is the arithmetic mean of the face vertices. -/
def faceCentre (points : pointField) (f : List Nat) : Vec3 :=
  ((f.length : ℚ))⁻¹ • (f.map points).sum

/-- Modelled from the spec: the external collaborator `face::nextLabel(i)`,
which section 6 of the design document states returns `faces[f][(i+1) mod size]`. -/
def nextLabel (f : List Nat) (i : Nat) : Nat := f.getD ((i + 1) % f.length) 0

/-- Translation of `decomposeCell` (MoFI.H lines 41-125).  The output buffer
is cleared on entry (line 54), so the `tetDecomp` argument is discarded.  The
scratch `tmpTetra` is default-constructed in the source (uninitialised
memory); it is modelled as the zero tetrahedron, and it is threaded through
the face loop exactly as the source mutates it (slot 3 is written once before
the loop, slot 2 once per non-triangular face, slots 0-2 per triangle and
slots 0-1 per fan edge).  In the four-face branch, if the scan of the second
face finds no vertex outside the first three (a malformed cell), slot 3 keeps
its uninitialised model value. -/
def decomposeCell (mesh : polyMesh) (points : pointField) (cellIndex : Nat)
    (xC : Vec3) (tetDecomp : List Tetrahedron) (xT : Vec3) :
    List Tetrahedron :=
  -- tetDecomp.clear()
  let faces := mesh.faces
  let dCell := mesh.cells.getD cellIndex []
  if dCell.length = 4 then
    let firstFace := faces.getD (dCell.getD 0 0) []
    let secondFace := faces.getD (dCell.getD 1 0) []
    let v3 :=
      match secondFace.find? (fun p =>
          p != firstFace.getD 0 0 && p != firstFace.getD 1 0 &&
          p != firstFace.getD 2 0) with
      | some p => points p - xT
      | none => 0
    [![points (firstFace.getD 0 0) - xT, points (firstFace.getD 1 0) - xT,
       points (firstFace.getD 2 0) - xT, v3]]
  else
    let tmpTetra0 : Tetrahedron := Function.update (fun _ => 0) 3 (xC - xT)
    (dCell.foldl
      (fun (st : Tetrahedron × List Tetrahedron) fI =>
        let checkFace := faces.getD fI []
        if checkFace.length = 3 then
          let tt := Function.update (Function.update (Function.update st.1
            0 (points (checkFace.getD 0 0) - xT))
            1 (points (checkFace.getD 1 0) - xT))
            2 (points (checkFace.getD 2 0) - xT)
          (tt, st.2 ++ [tt])
        else
          let tc := Function.update st.1 2 (faceCentre points checkFace - xT)
          (List.range checkFace.length).foldl
            (fun (st2 : Tetrahedron × List Tetrahedron) pI =>
              let tt := Function.update (Function.update st2.1
                0 (points (checkFace.getD pI 0) - xT))
                1 (points (nextLabel checkFace pI) - xT)
              (tt, st2.2 ++ [tt]))
            (tc, st.2))
      (tmpTetra0, ([] : List Tetrahedron))).2

/-! ## Classification-list facts -/

theorem three_filter_length (C : Fin 4 → ℚ) (l : List (Fin 4)) :
    (l.filter fun i => 0 < C i).length + (l.filter fun i => C i < 0).length
      + (l.filter fun i => C i = 0).length = l.length := by
  induction l with
  | nil => simp
  | cons a l ih =>
    rcases lt_trichotomy (C a) 0 with h | h | h
    · simp [List.filter_cons, h, h.ne, not_lt.mpr h.le]; omega
    · simp [List.filter_cons, h]; omega
    · simp [List.filter_cons, h, h.ne', not_lt.mpr h.le]; omega

theorem lists_length (pl : hPlane) (t : Tetrahedron) :
    (posList pl t).length + (negList pl t).length + (zeroList pl t).length = 4 := by
  have h := three_filter_length (planeDists pl t) (List.finRange 4)
  simpa [posList, negList, zeroList] using h

theorem mem_posList {pl : hPlane} {t : Tetrahedron} {i : Fin 4} :
    i ∈ posList pl t ↔ 0 < planeDists pl t i := by
  simp [posList, List.mem_filter]

theorem mem_negList {pl : hPlane} {t : Tetrahedron} {i : Fin 4} :
    i ∈ negList pl t ↔ planeDists pl t i < 0 := by
  simp [negList, List.mem_filter]

theorem mem_zeroList {pl : hPlane} {t : Tetrahedron} {i : Fin 4} :
    i ∈ zeroList pl t ↔ planeDists pl t i = 0 := by
  simp [zeroList, List.mem_filter]

theorem posList_nodup (pl : hPlane) (t : Tetrahedron) : (posList pl t).Nodup :=
  (List.nodup_finRange 4).filter _

theorem negList_nodup (pl : hPlane) (t : Tetrahedron) : (negList pl t).Nodup :=
  (List.nodup_finRange 4).filter _

theorem zeroList_nodup (pl : hPlane) (t : Tetrahedron) : (zeroList pl t).Nodup :=
  (List.nodup_finRange 4).filter _

theorem pos_ne_neg {pl : hPlane} {t : Tetrahedron} {p n : Fin 4}
    (hp : p ∈ posList pl t) (hn : n ∈ negList pl t) : p ≠ n := by
  intro h
  exact absurd (mem_posList.mp hp) (not_lt.mpr (h ▸ (mem_negList.mp hn)).le)

theorem pos_ne_zero {pl : hPlane} {t : Tetrahedron} {p z : Fin 4}
    (hp : p ∈ posList pl t) (hz : z ∈ zeroList pl t) : p ≠ z := by
  intro h
  have := mem_posList.mp hp
  rw [h, mem_zeroList.mp hz] at this
  exact lt_irrefl 0 this

theorem neg_ne_zero_idx {pl : hPlane} {t : Tetrahedron} {n z : Fin 4}
    (hn : n ∈ negList pl t) (hz : z ∈ zeroList pl t) : n ≠ z := by
  intro h
  have := mem_negList.mp hn
  rw [h, mem_zeroList.mp hz] at this
  exact lt_irrefl 0 this

theorem not_mem_any {pl : hPlane} {t : Tetrahedron} {i : Fin 4}
    (hp : i ∉ posList pl t) (hn : i ∉ negList pl t) : planeDists pl t i = 0 := by
  rcases lt_trichotomy (planeDists pl t i) 0 with h | h | h
  · exact absurd (mem_negList.mpr h) hn
  · exact h
  · exact absurd (mem_posList.mpr h) hp

/-! ## The opposing half-space -/

theorem planeDists_negPlane (n : Vec3) (d : ℚ) (t : Tetrahedron) (i : Fin 4) :
    planeDists (-n, -d) t i = -planeDists (n, d) t i := by
  simp [planeDists, dot]
  ring

theorem posList_negPlane (n : Vec3) (d : ℚ) (t : Tetrahedron) :
    posList (-n, -d) t = negList (n, d) t := by
  refine List.filter_congr ?_
  intro i _
  simp [planeDists_negPlane]

theorem negList_negPlane (n : Vec3) (d : ℚ) (t : Tetrahedron) :
    negList (-n, -d) t = posList (n, d) t := by
  refine List.filter_congr ?_
  intro i _
  simp [planeDists_negPlane]

theorem zeroList_negPlane (n : Vec3) (d : ℚ) (t : Tetrahedron) :
    zeroList (-n, -d) t = zeroList (n, d) t := by
  refine List.filter_congr ?_
  intro i _
  simp [planeDists_negPlane]

/-! ## Volume aggregation in closed form -/

theorem foldl_volume (l : List Tetrahedron) (v : ℚ) (c : Vec3) :
    l.foldl (fun (a : ℚ × Vec3) t => (a.1 + tetVol t, a.2 + tetVol t • tetCentroid t)) (v, c)
      = (v + (l.map tetVol).sum, c + (l.map fun t => tetVol t • tetCentroid t).sum) := by
  induction l generalizing v c with
  | nil => simp
  | cons t l ih => simp [ih, add_assoc]

theorem getVolumeAndCentre_fst (tets : List Tetrahedron) :
    (getVolumeAndCentre tets).1 = (tets.map tetVol).sum := by
  simp only [getVolumeAndCentre, foldl_volume, zero_add]

theorem getVolumeAndCentre_snd (tets : List Tetrahedron) :
    (getVolumeAndCentre tets).2
      = ((tets.map tetVol).sum + VSMALL)⁻¹
          • (tets.map fun t => tetVol t • tetCentroid t).sum := by
  simp only [getVolumeAndCentre, foldl_volume, zero_add]

/-! ## Evaluation of splitAndDecompose in each classification case -/

theorem intPoint_update (C : Fin 4 → ℚ) (t : Tetrahedron) (p n q : Fin 4)
    (v : Vec3) (hpq : p ≠ q) (hnq : n ≠ q) :
    intPoint C (Function.update t q v) p n = intPoint C t p n := by
  unfold intPoint
  rw [Function.update_noteq hpq, Function.update_noteq hnq]

theorem split_negEmpty (pl : hPlane) (t : Tetrahedron) (buf : List Tetrahedron)
    (hn : negList pl t = []) : splitAndDecompose pl t buf = buf := by
  simp only [splitAndDecompose, hn]
  simp

theorem split_posEmpty (pl : hPlane) (t : Tetrahedron) (buf : List Tetrahedron)
    (hn : negList pl t ≠ []) (hp : posList pl t = []) :
    splitAndDecompose pl t buf = buf ++ [t] := by
  simp only [splitAndDecompose, hp]
  simp [List.length_eq_zero, hn]

theorem split_caseA (pl : hPlane) (t : Tetrahedron) (buf : List Tetrahedron)
    (p0 p1 p2 n0 : Fin 4)
    (hp : posList pl t = [p0, p1, p2]) (hn : negList pl t = [n0])
    (hz : zeroList pl t = []) :
    splitAndDecompose pl t buf = buf ++
      [Function.update (Function.update (Function.update t
        p0 (intPoint (planeDists pl t) t p0 n0))
        p1 (intPoint (planeDists pl t) t p1 n0))
        p2 (intPoint (planeDists pl t) t p2 n0)] := by
  have hnd := posList_nodup pl t
  rw [hp] at hnd
  simp only [List.nodup_cons, List.mem_cons] at hnd
  have h10 : p1 ≠ p0 := fun h => hnd.1 (Or.inl h.symm)
  have h20 : p2 ≠ p0 := fun h => hnd.1 (Or.inr (Or.inl h.symm))
  have h21 : p2 ≠ p1 := fun h => hnd.2.1 (Or.inl h.symm)
  have hn0 : n0 ∈ negList pl t := by rw [hn]; simp
  have hn0p0 : n0 ≠ p0 := (pos_ne_neg (by rw [hp]; simp) hn0).symm
  have hn0p1 : n0 ≠ p1 := (pos_ne_neg (by rw [hp]; simp) hn0).symm
  simp only [splitAndDecompose, hp, hn, hz]
  simp only [List.length_cons, List.length_nil, List.cons_ne_self]
  norm_num
  rw [intPoint_update _ _ _ _ _ _ h10 hn0p0,
    intPoint_update _ _ _ _ _ _ h21 hn0p1, intPoint_update _ _ _ _ _ _ h20 hn0p0]

theorem split_caseB (pl : hPlane) (t : Tetrahedron) (buf : List Tetrahedron)
    (p0 p1 n0 n1 : Fin 4)
    (hp : posList pl t = [p0, p1]) (hn : negList pl t = [n0, n1])
    (hz : zeroList pl t = []) :
    splitAndDecompose pl t buf = buf ++
      [Function.update (Function.update t
         p0 (intPoint (planeDists pl t) t p0 n1))
         p1 (intPoint (planeDists pl t) t p1 n0),
       ![t n1, intPoint (planeDists pl t) t p1 n1,
         intPoint (planeDists pl t) t p0 n1,
         intPoint (planeDists pl t) t p1 n0],
       ![t n0, intPoint (planeDists pl t) t p0 n0,
         intPoint (planeDists pl t) t p1 n0,
         intPoint (planeDists pl t) t p0 n1]] := by
  have hn0 : n0 ∈ negList pl t := by rw [hn]; simp
  have hn1 : n1 ∈ negList pl t := by rw [hn]; simp
  have hp0 : p0 ∈ posList pl t := by rw [hp]; simp
  have hp1 : p1 ∈ posList pl t := by rw [hp]; simp
  have hn0p0 : n0 ≠ p0 := (pos_ne_neg hp0 hn0).symm
  have hn0p1 : n0 ≠ p1 := (pos_ne_neg hp1 hn0).symm
  have hn1p0 : n1 ≠ p0 := (pos_ne_neg hp0 hn1).symm
  have hn1p1 : n1 ≠ p1 := (pos_ne_neg hp1 hn1).symm
  simp only [splitAndDecompose, hp, hn, hz]
  simp only [List.length_cons, List.length_nil]
  norm_num
  rw [Function.update_noteq hn1p1, Function.update_noteq hn1p0,
    Function.update_noteq hn0p1, Function.update_noteq hn0p0]
  exact ⟨rfl, rfl⟩

theorem split_caseC (pl : hPlane) (t : Tetrahedron) (buf : List Tetrahedron)
    (p0 p1 n0 z0 : Fin 4)
    (hp : posList pl t = [p0, p1]) (hn : negList pl t = [n0])
    (hz : zeroList pl t = [z0]) :
    splitAndDecompose pl t buf = buf ++
      [Function.update (Function.update t
        p0 (intPoint (planeDists pl t) t p0 n0))
        p1 (intPoint (planeDists pl t) t p1 n0)] := by
  have hnd := posList_nodup pl t
  rw [hp] at hnd
  simp only [List.nodup_cons, List.mem_cons] at hnd
  have h10 : p1 ≠ p0 := fun h => hnd.1 (by simp [h.symm])
  have hn0 : n0 ∈ negList pl t := by rw [hn]; simp
  have hn0p0 : n0 ≠ p0 := (pos_ne_neg (by rw [hp]; simp) hn0).symm
  simp only [splitAndDecompose, hp, hn, hz]
  simp only [List.length_cons, List.length_nil]
  norm_num
  rw [intPoint_update _ _ _ _ _ _ h10 hn0p0]

theorem split_caseD (pl : hPlane) (t : Tetrahedron) (buf : List Tetrahedron)
    (p0 n0 n1 n2 : Fin 4)
    (hp : posList pl t = [p0]) (hn : negList pl t = [n0, n1, n2])
    (hz : zeroList pl t = []) :
    splitAndDecompose pl t buf = buf ++
      [Function.update t p0 (intPoint (planeDists pl t) t p0 n0),
       ![intPoint (planeDists pl t) t p0 n0, t n1, t n2,
         intPoint (planeDists pl t) t p0 n1],
       ![t n2, intPoint (planeDists pl t) t p0 n1,
         intPoint (planeDists pl t) t p0 n2,
         intPoint (planeDists pl t) t p0 n0]] := by
  have hp0 : p0 ∈ posList pl t := by rw [hp]; simp
  have hn1p0 : n1 ≠ p0 := (pos_ne_neg hp0 (by rw [hn]; simp)).symm
  have hn2p0 : n2 ≠ p0 := (pos_ne_neg hp0 (by rw [hn]; simp)).symm
  simp only [splitAndDecompose, hp, hn, hz]
  simp only [List.length_cons, List.length_nil]
  norm_num
  rw [Function.update_noteq hn1p0, Function.update_noteq hn2p0]
  exact ⟨rfl, rfl⟩

theorem split_caseE (pl : hPlane) (t : Tetrahedron) (buf : List Tetrahedron)
    (p0 n0 n1 z0 : Fin 4)
    (hp : posList pl t = [p0]) (hn : negList pl t = [n0, n1])
    (hz : zeroList pl t = [z0]) :
    splitAndDecompose pl t buf = buf ++
      [Function.update t p0 (intPoint (planeDists pl t) t p0 n0),
       ![intPoint (planeDists pl t) t p0 n1, t z0, t n1,
         intPoint (planeDists pl t) t p0 n0]] := by
  have hp0 : p0 ∈ posList pl t := by rw [hp]; simp
  have hn1p0 : n1 ≠ p0 := (pos_ne_neg hp0 (by rw [hn]; simp)).symm
  have hz0p0 : z0 ≠ p0 := (pos_ne_zero hp0 (by rw [hz]; simp)).symm
  simp only [splitAndDecompose, hp, hn, hz]
  simp only [List.length_cons, List.length_nil]
  norm_num
  rw [Function.update_noteq hz0p0, Function.update_noteq hn1p0]

theorem split_caseF (pl : hPlane) (t : Tetrahedron) (buf : List Tetrahedron)
    (p0 n0 z0 z1 : Fin 4)
    (hp : posList pl t = [p0]) (hn : negList pl t = [n0])
    (hz : zeroList pl t = [z0, z1]) :
    splitAndDecompose pl t buf = buf ++
      [Function.update t p0 (intPoint (planeDists pl t) t p0 n0)] := by
  simp only [splitAndDecompose, hp, hn, hz]
  simp only [List.length_cons, List.length_nil]
  norm_num

/-! ## Signed-volume algebra -/

set_option maxHeartbeats 1600000 in
theorem tetVol_perm (t : Tetrahedron) (a b c d : Fin 4)
    (hab : a ≠ b) (hac : a ≠ c) (had : a ≠ d) (hbc : b ≠ c) (hbd : b ≠ d)
    (hcd : c ≠ d) : tetVol ![t a, t b, t c, t d] = tetVol t := by
  fin_cases a <;> fin_cases b <;> fin_cases c <;> fin_cases d <;>
    first
      | (exact absurd rfl (by assumption))
      | (refine abs_eq_abs.mpr (Or.inl ?_); simp [sv, dot, cross]; try ring
         done)
      | (refine abs_eq_abs.mpr (Or.inr ?_); simp [sv, dot, cross]; try ring
         done)

theorem weight_facts (C : Fin 4 → ℚ) (p n : Fin 4)
    (hp : 0 < C p) (hn : C n < 0) :
    0 < w0 C p n ∧ w0 C p n < 1 ∧ 0 < w1 C p n ∧ w1 C p n < 1 ∧
      w0 C p n + w1 C p n = 1 := by
  have hd : 0 < C p - C n := by linarith
  have hw0 : 0 < w0 C p n := mul_pos (by linarith) (inv_pos.mpr hd)
  have hw1 : 0 < w1 C p n := mul_pos hp (inv_pos.mpr hd)
  have hsum : w0 C p n + w1 C p n = 1 := by
    unfold w0 w1
    field_simp
    ring
  exact ⟨hw0, by linarith, hw1, by linarith, hsum⟩

theorem intPoint_aform (C : Fin 4 → ℚ) (t : Tetrahedron) (p n : Fin 4)
    (hp : 0 < C p) (hn : C n < 0) :
    intPoint C t p n = w0 C p n • t p + (1 - w0 C p n) • t n := by
  have hsum := (weight_facts C p n hp hn).2.2.2.2
  rw [intPoint]
  congr 1
  rw [show w1 C p n = 1 - w0 C p n by linarith]

theorem intPoint_negPlane (C : Fin 4 → ℚ) (t : Tetrahedron) (p n : Fin 4) :
    intPoint (fun i => -C i) t n p = intPoint C t p n := by
  ext <;> simp [intPoint, w0, w1] <;> ring

theorem sv_eq_zero_of_coplanar (n : Vec3) (d : ℚ) (t : Tetrahedron)
    (hn : n ≠ 0) (h : ∀ i, planeDists (n, d) t i = 0) : sv t = 0 := by
  have he : ∀ i, dot (t i - t 0) n = 0 := by
    intro i
    have h0 := h 0
    have hi := h i
    simp [planeDists, dot] at h0 hi ⊢
    linarith
  have he1 := he 1
  have he2 := he 2
  have he3 := he 3
  have hx : sv t * n.x = (1 / 6) *
      (dot (t 1 - t 0) n * (cross (t 2 - t 0) (t 3 - t 0)).x
        + dot (t 2 - t 0) n * (cross (t 3 - t 0) (t 1 - t 0)).x
        + dot (t 3 - t 0) n * (cross (t 1 - t 0) (t 2 - t 0)).x) := by
    simp [sv, dot, cross]
    ring
  have hy : sv t * n.y = (1 / 6) *
      (dot (t 1 - t 0) n * (cross (t 2 - t 0) (t 3 - t 0)).y
        + dot (t 2 - t 0) n * (cross (t 3 - t 0) (t 1 - t 0)).y
        + dot (t 3 - t 0) n * (cross (t 1 - t 0) (t 2 - t 0)).y) := by
    simp [sv, dot, cross]
    ring
  have hz : sv t * n.z = (1 / 6) *
      (dot (t 1 - t 0) n * (cross (t 2 - t 0) (t 3 - t 0)).z
        + dot (t 2 - t 0) n * (cross (t 3 - t 0) (t 1 - t 0)).z
        + dot (t 3 - t 0) n * (cross (t 1 - t 0) (t 2 - t 0)).z) := by
    simp [sv, dot, cross]
    ring
  rw [he1, he2, he3] at hx hy hz
  simp at hx hy hz
  have hcomp : n.x ≠ 0 ∨ n.y ≠ 0 ∨ n.z ≠ 0 := by
    by_contra hc
    push_neg at hc
    exact hn (by ext <;> simp [hc.1, hc.2.1, hc.2.2])
  rcases hcomp with hc | hc | hc
  · rcases hx with h | h
    · exact h
    · exact absurd h hc
  · rcases hy with h | h
    · exact h
    · exact absurd h hc
  · rcases hz with h | h
    · exact h
    · exact absurd h hc

/-! ## Core conservation identities, one per split-case pairing -/

theorem clipCoreAD (q0 q1 q2 r : Vec3) (a0 a1 a2 : ℚ)
    (h0 : 0 < a0) (h0' : a0 < 1) (h1 : 0 < a1) (h1' : a1 < 1)
    (h2 : 0 < a2) (h2' : a2 < 1) :
    tetVol ![a0 • q0 + (1 - a0) • r, a1 • q1 + (1 - a1) • r,
             a2 • q2 + (1 - a2) • r, r]
      + (tetVol ![q0, q1, q2, a0 • q0 + (1 - a0) • r]
         + (tetVol ![a0 • q0 + (1 - a0) • r, q1, q2, a1 • q1 + (1 - a1) • r]
            + tetVol ![q2, a1 • q1 + (1 - a1) • r, a2 • q2 + (1 - a2) • r,
                       a0 • q0 + (1 - a0) • r]))
      = tetVol ![q0, q1, q2, r] := by
  have hA : sv ![a0 • q0 + (1 - a0) • r, a1 • q1 + (1 - a1) • r,
      a2 • q2 + (1 - a2) • r, r] = (a0 * a1 * a2) * sv ![q0, q1, q2, r] := by
    simp [sv, dot, cross]
    ring
  have hD1 : sv ![q0, q1, q2, a0 • q0 + (1 - a0) • r]
      = (1 - a0) * sv ![q0, q1, q2, r] := by
    simp [sv, dot, cross]
    ring
  have hD2 : sv ![a0 • q0 + (1 - a0) • r, q1, q2, a1 • q1 + (1 - a1) • r]
      = (a0 * (1 - a1)) * sv ![q0, q1, q2, r] := by
    simp [sv, dot, cross]
    ring
  have hD3 : sv ![q2, a1 • q1 + (1 - a1) • r, a2 • q2 + (1 - a2) • r,
      a0 • q0 + (1 - a0) • r] = (a0 * a1 * (1 - a2)) * sv ![q0, q1, q2, r] := by
    simp [sv, dot, cross]
    ring
  simp only [tetVol]
  rw [hA, hD1, hD2, hD3]
  simp only [abs_mul]
  rw [abs_of_pos h0, abs_of_pos h1, abs_of_pos h2,
    abs_of_pos (sub_pos.mpr h0'), abs_of_pos (sub_pos.mpr h1'),
    abs_of_pos (sub_pos.mpr h2')]
  ring

theorem clipCoreB (q0 q1 r0 r1 : Vec3) (a b c d : ℚ)
    (ha : 0 < a) (ha' : a < 1) (hb : 0 < b) (hb' : b < 1)
    (hc : 0 < c) (hc' : c < 1) (hd : 0 < d) (hd' : d < 1) :
    (tetVol ![c • q0 + (1 - c) • r1, b • q1 + (1 - b) • r0, r0, r1]
      + (tetVol ![r1, d • q1 + (1 - d) • r1, c • q0 + (1 - c) • r1,
                  b • q1 + (1 - b) • r0]
         + tetVol ![r0, a • q0 + (1 - a) • r0, b • q1 + (1 - b) • r0,
                    c • q0 + (1 - c) • r1]))
      + (tetVol ![q0, q1, b • q1 + (1 - b) • r0, c • q0 + (1 - c) • r1]
         + (tetVol ![q1, d • q1 + (1 - d) • r1, b • q1 + (1 - b) • r0,
                     c • q0 + (1 - c) • r1]
            + tetVol ![q0, a • q0 + (1 - a) • r0, c • q0 + (1 - c) • r1,
                       b • q1 + (1 - b) • r0]))
      = tetVol ![q0, q1, r0, r1] := by
  have hB1 : sv ![c • q0 + (1 - c) • r1, b • q1 + (1 - b) • r0, r0, r1]
      = (b * c) * sv ![q0, q1, r0, r1] := by
    simp [sv, dot, cross]
    ring
  have hB2 : sv ![r1, d • q1 + (1 - d) • r1, c • q0 + (1 - c) • r1,
      b • q1 + (1 - b) • r0] = (c * d * (1 - b)) * sv ![q0, q1, r0, r1] := by
    simp [sv, dot, cross]
    ring
  have hB3 : sv ![r0, a • q0 + (1 - a) • r0, b • q1 + (1 - b) • r0,
      c • q0 + (1 - c) • r1] = (a * b * (1 - c)) * sv ![q0, q1, r0, r1] := by
    simp [sv, dot, cross]
    ring
  have hB4 : sv ![q0, q1, b • q1 + (1 - b) • r0, c • q0 + (1 - c) • r1]
      = ((1 - b) * (1 - c)) * sv ![q0, q1, r0, r1] := by
    simp [sv, dot, cross]
    ring
  have hB5 : sv ![q1, d • q1 + (1 - d) • r1, b • q1 + (1 - b) • r0,
      c • q0 + (1 - c) • r1] = (c * (1 - b) * (1 - d)) * sv ![q0, q1, r0, r1] := by
    simp [sv, dot, cross]
    ring
  have hB6 : sv ![q0, a • q0 + (1 - a) • r0, c • q0 + (1 - c) • r1,
      b • q1 + (1 - b) • r0] = (b * (1 - a) * (1 - c)) * sv ![q0, q1, r0, r1] := by
    simp [sv, dot, cross]
    ring
  simp only [tetVol]
  rw [hB1, hB2, hB3, hB4, hB5, hB6]
  simp only [abs_mul]
  rw [abs_of_pos ha, abs_of_pos hb, abs_of_pos hc, abs_of_pos hd,
    abs_of_pos (sub_pos.mpr ha'), abs_of_pos (sub_pos.mpr hb'),
    abs_of_pos (sub_pos.mpr hc'), abs_of_pos (sub_pos.mpr hd')]
  ring

theorem clipCoreCE (q0 q1 r z : Vec3) (a0 a1 : ℚ)
    (h0 : 0 < a0) (h0' : a0 < 1) (h1 : 0 < a1) (h1' : a1 < 1) :
    tetVol ![a0 • q0 + (1 - a0) • r, a1 • q1 + (1 - a1) • r, r, z]
      + (tetVol ![q0, q1, a0 • q0 + (1 - a0) • r, z]
         + tetVol ![a1 • q1 + (1 - a1) • r, z, q1, a0 • q0 + (1 - a0) • r])
      = tetVol ![q0, q1, r, z] := by
  have hC : sv ![a0 • q0 + (1 - a0) • r, a1 • q1 + (1 - a1) • r, r, z]
      = (a0 * a1) * sv ![q0, q1, r, z] := by
    simp [sv, dot, cross]
    ring
  have hE1 : sv ![q0, q1, a0 • q0 + (1 - a0) • r, z]
      = (1 - a0) * sv ![q0, q1, r, z] := by
    simp [sv, dot, cross]
    ring
  have hE2 : sv ![a1 • q1 + (1 - a1) • r, z, q1, a0 • q0 + (1 - a0) • r]
      = -((a0 * (1 - a1)) * sv ![q0, q1, r, z]) := by
    simp [sv, dot, cross]
    ring
  simp only [tetVol]
  rw [hC, hE1, hE2, abs_neg]
  simp only [abs_mul]
  rw [abs_of_pos h0, abs_of_pos h1,
    abs_of_pos (sub_pos.mpr h0'), abs_of_pos (sub_pos.mpr h1')]
  ring

theorem clipCoreFF (q r z0 z1 : Vec3) (a : ℚ) (ha : 0 < a) (ha' : a < 1) :
    tetVol ![a • q + (1 - a) • r, r, z0, z1]
      + tetVol ![q, a • q + (1 - a) • r, z0, z1]
      = tetVol ![q, r, z0, z1] := by
  have hF1 : sv ![a • q + (1 - a) • r, r, z0, z1] = a * sv ![q, r, z0, z1] := by
    simp [sv, dot, cross]
    ring
  have hF2 : sv ![q, a • q + (1 - a) • r, z0, z1]
      = (1 - a) * sv ![q, r, z0, z1] := by
    simp [sv, dot, cross]
    ring
  simp only [tetVol]
  rw [hF1, hF2, abs_mul, abs_mul, abs_of_pos ha, abs_of_pos (sub_pos.mpr ha')]
  ring

/-! ## Conservation assembly, case by case -/

theorem conserve_caseA (n : Vec3) (d : ℚ) (t : Tetrahedron) (p0 p1 p2 n0 : Fin 4)
    (hp : posList (n, d) t = [p0, p1, p2]) (hn : negList (n, d) t = [n0])
    (hz : zeroList (n, d) t = []) :
    ((splitAndDecompose (n, d) t []).map tetVol).sum
      + ((splitAndDecompose (-n, -d) t []).map tetVol).sum = tetVol t := by
  have h01 : p0 ≠ p1 := by
    rintro rfl
    have hh := posList_nodup (n, d) t
    rw [hp] at hh
    simp at hh
  have h02 : p0 ≠ p2 := by
    rintro rfl
    have hh := posList_nodup (n, d) t
    rw [hp] at hh
    simp at hh
  have h12 : p1 ≠ p2 := by
    rintro rfl
    have hh := posList_nodup (n, d) t
    rw [hp] at hh
    simp at hh
  have hmn0 : n0 ∈ negList (n, d) t := by rw [hn]; simp
  have h0n : p0 ≠ n0 := pos_ne_neg (by rw [hp]; simp) hmn0
  have h1n : p1 ≠ n0 := pos_ne_neg (by rw [hp]; simp) hmn0
  have h2n : p2 ≠ n0 := pos_ne_neg (by rw [hp]; simp) hmn0
  have hp0 : 0 < planeDists (n, d) t p0 := mem_posList.mp (by rw [hp]; simp)
  have hp1 : 0 < planeDists (n, d) t p1 := mem_posList.mp (by rw [hp]; simp)
  have hp2 : 0 < planeDists (n, d) t p2 := mem_posList.mp (by rw [hp]; simp)
  have hn0 : planeDists (n, d) t n0 < 0 := mem_negList.mp hmn0
  have hp' : posList (-n, -d) t = [n0] := by rw [posList_negPlane, hn]
  have hn' : negList (-n, -d) t = [p0, p1, p2] := by rw [negList_negPlane, hp]
  have hz' : zeroList (-n, -d) t = [] := by rw [zeroList_negPlane, hz]
  rw [split_caseA (n, d) t [] p0 p1 p2 n0 hp hn hz,
    split_caseD (-n, -d) t [] n0 p0 p1 p2 hp' hn' hz']
  have hCneg : planeDists (-n, -d) t = fun i => -planeDists (n, d) t i :=
    funext (planeDists_negPlane n d t)
  rw [hCneg]
  simp only [intPoint_negPlane]
  rw [intPoint_aform (planeDists (n, d) t) t p0 n0 hp0 hn0,
    intPoint_aform (planeDists (n, d) t) t p1 n0 hp1 hn0,
    intPoint_aform (planeDists (n, d) t) t p2 n0 hp2 hn0]
  simp only [List.nil_append, List.map_cons, List.map_nil, List.sum_cons,
    List.sum_nil, add_zero]
  have permA := tetVol_perm
    (Function.update (Function.update (Function.update t
      p0 (w0 (planeDists (n, d) t) p0 n0 • t p0
        + (1 - w0 (planeDists (n, d) t) p0 n0) • t n0))
      p1 (w0 (planeDists (n, d) t) p1 n0 • t p1
        + (1 - w0 (planeDists (n, d) t) p1 n0) • t n0))
      p2 (w0 (planeDists (n, d) t) p2 n0 • t p2
        + (1 - w0 (planeDists (n, d) t) p2 n0) • t n0))
    p0 p1 p2 n0 h01 h02 h0n h12 h1n h2n
  rw [← permA, Function.update_noteq h02, Function.update_noteq h01,
    Function.update_same, Function.update_noteq h12, Function.update_same,
    Function.update_same, Function.update_noteq h2n.symm,
    Function.update_noteq h1n.symm, Function.update_noteq h0n.symm]
  have permD1 := tetVol_perm
    (Function.update t n0 (w0 (planeDists (n, d) t) p0 n0 • t p0
      + (1 - w0 (planeDists (n, d) t) p0 n0) • t n0))
    p0 p1 p2 n0 h01 h02 h0n h12 h1n h2n
  rw [← permD1, Function.update_noteq h0n, Function.update_noteq h1n,
    Function.update_noteq h2n, Function.update_same]
  have permT := tetVol_perm t p0 p1 p2 n0 h01 h02 h0n h12 h1n h2n
  rw [← permT]
  exact clipCoreAD (t p0) (t p1) (t p2) (t n0)
    (w0 (planeDists (n, d) t) p0 n0) (w0 (planeDists (n, d) t) p1 n0)
    (w0 (planeDists (n, d) t) p2 n0)
    (weight_facts _ p0 n0 hp0 hn0).1 (weight_facts _ p0 n0 hp0 hn0).2.1
    (weight_facts _ p1 n0 hp1 hn0).1 (weight_facts _ p1 n0 hp1 hn0).2.1
    (weight_facts _ p2 n0 hp2 hn0).1 (weight_facts _ p2 n0 hp2 hn0).2.1

theorem conserve_caseB (n : Vec3) (d : ℚ) (t : Tetrahedron) (p0 p1 n0 n1 : Fin 4)
    (hp : posList (n, d) t = [p0, p1]) (hn : negList (n, d) t = [n0, n1])
    (hz : zeroList (n, d) t = []) :
    ((splitAndDecompose (n, d) t []).map tetVol).sum
      + ((splitAndDecompose (-n, -d) t []).map tetVol).sum = tetVol t := by
  have h01 : p0 ≠ p1 := by
    rintro rfl
    have hh := posList_nodup (n, d) t
    rw [hp] at hh
    simp at hh
  have hn01 : n0 ≠ n1 := by
    rintro rfl
    have hh := negList_nodup (n, d) t
    rw [hn] at hh
    simp at hh
  have hmp0 : p0 ∈ posList (n, d) t := by rw [hp]; simp
  have hmp1 : p1 ∈ posList (n, d) t := by rw [hp]; simp
  have hmn0 : n0 ∈ negList (n, d) t := by rw [hn]; simp
  have hmn1 : n1 ∈ negList (n, d) t := by rw [hn]; simp
  have h0n0 : p0 ≠ n0 := pos_ne_neg hmp0 hmn0
  have h0n1 : p0 ≠ n1 := pos_ne_neg hmp0 hmn1
  have h1n0 : p1 ≠ n0 := pos_ne_neg hmp1 hmn0
  have h1n1 : p1 ≠ n1 := pos_ne_neg hmp1 hmn1
  have hp0 : 0 < planeDists (n, d) t p0 := mem_posList.mp hmp0
  have hp1 : 0 < planeDists (n, d) t p1 := mem_posList.mp hmp1
  have hn0 : planeDists (n, d) t n0 < 0 := mem_negList.mp hmn0
  have hn1 : planeDists (n, d) t n1 < 0 := mem_negList.mp hmn1
  have hp' : posList (-n, -d) t = [n0, n1] := by rw [posList_negPlane, hn]
  have hn' : negList (-n, -d) t = [p0, p1] := by rw [negList_negPlane, hp]
  have hz' : zeroList (-n, -d) t = [] := by rw [zeroList_negPlane, hz]
  rw [split_caseB (n, d) t [] p0 p1 n0 n1 hp hn hz,
    split_caseB (-n, -d) t [] n0 n1 p0 p1 hp' hn' hz']
  have hCneg : planeDists (-n, -d) t = fun i => -planeDists (n, d) t i :=
    funext (planeDists_negPlane n d t)
  rw [hCneg]
  simp only [intPoint_negPlane]
  rw [intPoint_aform (planeDists (n, d) t) t p0 n0 hp0 hn0,
    intPoint_aform (planeDists (n, d) t) t p1 n0 hp1 hn0,
    intPoint_aform (planeDists (n, d) t) t p0 n1 hp0 hn1,
    intPoint_aform (planeDists (n, d) t) t p1 n1 hp1 hn1]
  simp only [List.nil_append, List.map_cons, List.map_nil, List.sum_cons,
    List.sum_nil, add_zero]
  have permP1 := tetVol_perm
    (Function.update (Function.update t
      p0 (w0 (planeDists (n, d) t) p0 n1 • t p0
        + (1 - w0 (planeDists (n, d) t) p0 n1) • t n1))
      p1 (w0 (planeDists (n, d) t) p1 n0 • t p1
        + (1 - w0 (planeDists (n, d) t) p1 n0) • t n0))
    p0 p1 n0 n1 h01 h0n0 h0n1 h1n0 h1n1 hn01
  rw [← permP1, Function.update_noteq h01, Function.update_same,
    Function.update_same, Function.update_noteq h1n0.symm,
    Function.update_noteq h0n0.symm, Function.update_noteq h1n1.symm,
    Function.update_noteq h0n1.symm]
  have permP1' := tetVol_perm
    (Function.update (Function.update t
      n0 (w0 (planeDists (n, d) t) p1 n0 • t p1
        + (1 - w0 (planeDists (n, d) t) p1 n0) • t n0))
      n1 (w0 (planeDists (n, d) t) p0 n1 • t p0
        + (1 - w0 (planeDists (n, d) t) p0 n1) • t n1))
    p0 p1 n0 n1 h01 h0n0 h0n1 h1n0 h1n1 hn01
  rw [← permP1', Function.update_noteq h0n1, Function.update_noteq h0n0,
    Function.update_noteq h1n1, Function.update_noteq h1n0,
    Function.update_noteq hn01, Function.update_same, Function.update_same]
  have permT := tetVol_perm t p0 p1 n0 n1 h01 h0n0 h0n1 h1n0 h1n1 hn01
  rw [← permT]
  exact clipCoreB (t p0) (t p1) (t n0) (t n1)
    (w0 (planeDists (n, d) t) p0 n0) (w0 (planeDists (n, d) t) p1 n0)
    (w0 (planeDists (n, d) t) p0 n1) (w0 (planeDists (n, d) t) p1 n1)
    (weight_facts _ p0 n0 hp0 hn0).1 (weight_facts _ p0 n0 hp0 hn0).2.1
    (weight_facts _ p1 n0 hp1 hn0).1 (weight_facts _ p1 n0 hp1 hn0).2.1
    (weight_facts _ p0 n1 hp0 hn1).1 (weight_facts _ p0 n1 hp0 hn1).2.1
    (weight_facts _ p1 n1 hp1 hn1).1 (weight_facts _ p1 n1 hp1 hn1).2.1

theorem conserve_caseC (n : Vec3) (d : ℚ) (t : Tetrahedron) (p0 p1 n0 z0 : Fin 4)
    (hp : posList (n, d) t = [p0, p1]) (hn : negList (n, d) t = [n0])
    (hz : zeroList (n, d) t = [z0]) :
    ((splitAndDecompose (n, d) t []).map tetVol).sum
      + ((splitAndDecompose (-n, -d) t []).map tetVol).sum = tetVol t := by
  have h01 : p0 ≠ p1 := by
    rintro rfl
    have hh := posList_nodup (n, d) t
    rw [hp] at hh
    simp at hh
  have hmp0 : p0 ∈ posList (n, d) t := by rw [hp]; simp
  have hmp1 : p1 ∈ posList (n, d) t := by rw [hp]; simp
  have hmn0 : n0 ∈ negList (n, d) t := by rw [hn]; simp
  have hmz0 : z0 ∈ zeroList (n, d) t := by rw [hz]; simp
  have h0n0 : p0 ≠ n0 := pos_ne_neg hmp0 hmn0
  have h1n0 : p1 ≠ n0 := pos_ne_neg hmp1 hmn0
  have h0z0 : p0 ≠ z0 := pos_ne_zero hmp0 hmz0
  have h1z0 : p1 ≠ z0 := pos_ne_zero hmp1 hmz0
  have hn0z0 : n0 ≠ z0 := neg_ne_zero_idx hmn0 hmz0
  have hp0 : 0 < planeDists (n, d) t p0 := mem_posList.mp hmp0
  have hp1 : 0 < planeDists (n, d) t p1 := mem_posList.mp hmp1
  have hn0 : planeDists (n, d) t n0 < 0 := mem_negList.mp hmn0
  have hp' : posList (-n, -d) t = [n0] := by rw [posList_negPlane, hn]
  have hn' : negList (-n, -d) t = [p0, p1] := by rw [negList_negPlane, hp]
  have hz' : zeroList (-n, -d) t = [z0] := by rw [zeroList_negPlane, hz]
  rw [split_caseC (n, d) t [] p0 p1 n0 z0 hp hn hz,
    split_caseE (-n, -d) t [] n0 p0 p1 z0 hp' hn' hz']
  have hCneg : planeDists (-n, -d) t = fun i => -planeDists (n, d) t i :=
    funext (planeDists_negPlane n d t)
  rw [hCneg]
  simp only [intPoint_negPlane]
  rw [intPoint_aform (planeDists (n, d) t) t p0 n0 hp0 hn0,
    intPoint_aform (planeDists (n, d) t) t p1 n0 hp1 hn0]
  simp only [List.nil_append, List.map_cons, List.map_nil, List.sum_cons,
    List.sum_nil, add_zero]
  have permC := tetVol_perm
    (Function.update (Function.update t
      p0 (w0 (planeDists (n, d) t) p0 n0 • t p0
        + (1 - w0 (planeDists (n, d) t) p0 n0) • t n0))
      p1 (w0 (planeDists (n, d) t) p1 n0 • t p1
        + (1 - w0 (planeDists (n, d) t) p1 n0) • t n0))
    p0 p1 n0 z0 h01 h0n0 h0z0 h1n0 h1z0 hn0z0
  rw [← permC, Function.update_noteq h01, Function.update_same,
    Function.update_same, Function.update_noteq h1n0.symm,
    Function.update_noteq h0n0.symm, Function.update_noteq h1z0.symm,
    Function.update_noteq h0z0.symm]
  have permE1 := tetVol_perm
    (Function.update t n0 (w0 (planeDists (n, d) t) p0 n0 • t p0
      + (1 - w0 (planeDists (n, d) t) p0 n0) • t n0))
    p0 p1 n0 z0 h01 h0n0 h0z0 h1n0 h1z0 hn0z0
  rw [← permE1, Function.update_noteq h0n0, Function.update_noteq h1n0,
    Function.update_same, Function.update_noteq hn0z0.symm]
  have permT := tetVol_perm t p0 p1 n0 z0 h01 h0n0 h0z0 h1n0 h1z0 hn0z0
  rw [← permT]
  exact clipCoreCE (t p0) (t p1) (t n0) (t z0)
    (w0 (planeDists (n, d) t) p0 n0) (w0 (planeDists (n, d) t) p1 n0)
    (weight_facts _ p0 n0 hp0 hn0).1 (weight_facts _ p0 n0 hp0 hn0).2.1
    (weight_facts _ p1 n0 hp1 hn0).1 (weight_facts _ p1 n0 hp1 hn0).2.1

theorem conserve_caseF (n : Vec3) (d : ℚ) (t : Tetrahedron) (p0 n0 z0 z1 : Fin 4)
    (hp : posList (n, d) t = [p0]) (hn : negList (n, d) t = [n0])
    (hz : zeroList (n, d) t = [z0, z1]) :
    ((splitAndDecompose (n, d) t []).map tetVol).sum
      + ((splitAndDecompose (-n, -d) t []).map tetVol).sum = tetVol t := by
  have hz01 : z0 ≠ z1 := by
    rintro rfl
    have hh := zeroList_nodup (n, d) t
    rw [hz] at hh
    simp at hh
  have hmp0 : p0 ∈ posList (n, d) t := by rw [hp]; simp
  have hmn0 : n0 ∈ negList (n, d) t := by rw [hn]; simp
  have hmz0 : z0 ∈ zeroList (n, d) t := by rw [hz]; simp
  have hmz1 : z1 ∈ zeroList (n, d) t := by rw [hz]; simp
  have h0n0 : p0 ≠ n0 := pos_ne_neg hmp0 hmn0
  have h0z0 : p0 ≠ z0 := pos_ne_zero hmp0 hmz0
  have h0z1 : p0 ≠ z1 := pos_ne_zero hmp0 hmz1
  have hn0z0 : n0 ≠ z0 := neg_ne_zero_idx hmn0 hmz0
  have hn0z1 : n0 ≠ z1 := neg_ne_zero_idx hmn0 hmz1
  have hp0 : 0 < planeDists (n, d) t p0 := mem_posList.mp hmp0
  have hn0 : planeDists (n, d) t n0 < 0 := mem_negList.mp hmn0
  have hp' : posList (-n, -d) t = [n0] := by rw [posList_negPlane, hn]
  have hn' : negList (-n, -d) t = [p0] := by rw [negList_negPlane, hp]
  have hz' : zeroList (-n, -d) t = [z0, z1] := by rw [zeroList_negPlane, hz]
  rw [split_caseF (n, d) t [] p0 n0 z0 z1 hp hn hz,
    split_caseF (-n, -d) t [] n0 p0 z0 z1 hp' hn' hz']
  have hCneg : planeDists (-n, -d) t = fun i => -planeDists (n, d) t i :=
    funext (planeDists_negPlane n d t)
  rw [hCneg]
  simp only [intPoint_negPlane]
  rw [intPoint_aform (planeDists (n, d) t) t p0 n0 hp0 hn0]
  simp only [List.nil_append, List.map_cons, List.map_nil, List.sum_cons,
    List.sum_nil, add_zero]
  have permF := tetVol_perm
    (Function.update t p0 (w0 (planeDists (n, d) t) p0 n0 • t p0
      + (1 - w0 (planeDists (n, d) t) p0 n0) • t n0))
    p0 n0 z0 z1 h0n0 h0z0 h0z1 hn0z0 hn0z1 hz01
  rw [← permF, Function.update_same, Function.update_noteq h0n0.symm,
    Function.update_noteq h0z0.symm, Function.update_noteq h0z1.symm]
  have permF' := tetVol_perm
    (Function.update t n0 (w0 (planeDists (n, d) t) p0 n0 • t p0
      + (1 - w0 (planeDists (n, d) t) p0 n0) • t n0))
    p0 n0 z0 z1 h0n0 h0z0 h0z1 hn0z0 hn0z1 hz01
  rw [← permF', Function.update_noteq h0n0, Function.update_same,
    Function.update_noteq hn0z0.symm, Function.update_noteq hn0z1.symm]
  have permT := tetVol_perm t p0 n0 z0 z1 h0n0 h0z0 h0z1 hn0z0 hn0z1 hz01
  rw [← permT]
  exact clipCoreFF (t p0) (t n0) (t z0) (t z1)
    (w0 (planeDists (n, d) t) p0 n0)
    (weight_facts _ p0 n0 hp0 hn0).1 (weight_facts _ p0 n0 hp0 hn0).2.1

theorem conserve_negEmpty (n : Vec3) (d : ℚ) (t : Tetrahedron) (hnv : n ≠ 0)
    (hn : negList (n, d) t = []) :
    ((splitAndDecompose (n, d) t []).map tetVol).sum
      + ((splitAndDecompose (-n, -d) t []).map tetVol).sum = tetVol t := by
  rw [split_negEmpty (n, d) t [] hn]
  by_cases hp : posList (n, d) t = []
  · rw [split_negEmpty (-n, -d) t [] (by rw [negList_negPlane, hp])]
    have hall : ∀ i, planeDists (n, d) t i = 0 := by
      intro i
      exact not_mem_any (by rw [hp]; simp) (by rw [hn]; simp)
    have : sv t = 0 := sv_eq_zero_of_coplanar n d t hnv hall
    simp [tetVol, this]
  · rw [split_posEmpty (-n, -d) t []
      (by rw [negList_negPlane]; exact hp)
      (by rw [posList_negPlane, hn])]
    simp

theorem conserve_posEmpty (n : Vec3) (d : ℚ) (t : Tetrahedron)
    (hn : negList (n, d) t ≠ []) (hp : posList (n, d) t = []) :
    ((splitAndDecompose (n, d) t []).map tetVol).sum
      + ((splitAndDecompose (-n, -d) t []).map tetVol).sum = tetVol t := by
  rw [split_posEmpty (n, d) t [] hn hp,
    split_negEmpty (-n, -d) t [] (by rw [negList_negPlane, hp])]
  simp

theorem conserve_caseD (n : Vec3) (d : ℚ) (t : Tetrahedron) (p0 n0 n1 n2 : Fin 4)
    (hp : posList (n, d) t = [p0]) (hn : negList (n, d) t = [n0, n1, n2])
    (hz : zeroList (n, d) t = []) :
    ((splitAndDecompose (n, d) t []).map tetVol).sum
      + ((splitAndDecompose (-n, -d) t []).map tetVol).sum = tetVol t := by
  have h := conserve_caseA (-n) (-d) t n0 n1 n2 p0
    (by rw [posList_negPlane, hn]) (by rw [negList_negPlane, hp])
    (by rw [zeroList_negPlane, hz])
  rw [neg_neg, neg_neg] at h
  linarith [h]

theorem conserve_caseE (n : Vec3) (d : ℚ) (t : Tetrahedron) (p0 n0 n1 z0 : Fin 4)
    (hp : posList (n, d) t = [p0]) (hn : negList (n, d) t = [n0, n1])
    (hz : zeroList (n, d) t = [z0]) :
    ((splitAndDecompose (n, d) t []).map tetVol).sum
      + ((splitAndDecompose (-n, -d) t []).map tetVol).sum = tetVol t := by
  have h := conserve_caseC (-n) (-d) t n0 n1 p0 z0
    (by rw [posList_negPlane, hn]) (by rw [negList_negPlane, hp])
    (by rw [zeroList_negPlane, hz])
  rw [neg_neg, neg_neg] at h
  linarith [h]

/-- C1: for every tetrahedron `T` and plane `H = (n, d)` with non-zero normal,
the volume reported by `getVolumeAndCentre` on the output of
`splitAndDecompose` for `H`, plus the volume reported for the opposing
half-space `(-n, -d)`, equals the volume of `T` itself (as computed by
`getVolumeAndCentre` on the one-element list). -/
theorem C1_clipper_conservation (nv : Vec3) (d : ℚ) (t : Tetrahedron)
    (hnv : nv ≠ 0) :
    (getVolumeAndCentre (splitAndDecompose (nv, d) t [])).1
      + (getVolumeAndCentre (splitAndDecompose (-nv, -d) t [])).1
      = (getVolumeAndCentre [t]).1 := by
  rw [getVolumeAndCentre_fst, getVolumeAndCentre_fst, getVolumeAndCentre_fst]
  have hone : (List.map tetVol [t]).sum = tetVol t := by simp
  rw [hone]
  have hlen := lists_length (nv, d) t
  rcases hn : negList (nv, d) t with _ | ⟨n0, ntl⟩
  · exact conserve_negEmpty nv d t hnv hn
  rcases hp : posList (nv, d) t with _ | ⟨p0, ptl⟩
  · exact conserve_posEmpty nv d t (by rw [hn]; simp) hp
  rcases ptl with _ | ⟨p1, ptl2⟩
  · -- nPos = 1
    rcases ntl with _ | ⟨n1, ntl2⟩
    · -- nNeg = 1, so nZero = 2
      have hzlen : (zeroList (nv, d) t).length = 2 := by
        rw [hp, hn] at hlen
        simp at hlen
        omega
      rcases hzl : zeroList (nv, d) t with _ | ⟨z0, _ | ⟨z1, _ | ⟨z2, ztl⟩⟩⟩
      · rw [hzl] at hzlen; simp at hzlen
      · rw [hzl] at hzlen; simp at hzlen
      · exact conserve_caseF nv d t p0 n0 z0 z1 hp hn hzl
      · rw [hzl] at hzlen; simp at hzlen
    rcases ntl2 with _ | ⟨n2, ntl3⟩
    · -- nNeg = 2, so nZero = 1
      have hzlen : (zeroList (nv, d) t).length = 1 := by
        rw [hp, hn] at hlen
        simp at hlen
        omega
      rcases hzl : zeroList (nv, d) t with _ | ⟨z0, _ | ⟨z1, ztl⟩⟩
      · rw [hzl] at hzlen; simp at hzlen
      · exact conserve_caseE nv d t p0 n0 n1 z0 hp hn hzl
      · rw [hzl] at hzlen; simp at hzlen
    rcases ntl3 with _ | ⟨n3, ntl4⟩
    · -- nNeg = 3, so nZero = 0
      have hzl : zeroList (nv, d) t = [] := by
        rw [hp, hn] at hlen
        simp only [List.length_cons, List.length_nil] at hlen
        exact List.length_eq_zero.mp (by omega)
      exact conserve_caseD nv d t p0 n0 n1 n2 hp hn hzl
    · -- nNeg ≥ 4 with nPos ≥ 1: impossible
      rw [hp, hn] at hlen
      simp only [List.length_cons, List.length_nil] at hlen
      omega
  rcases ptl2 with _ | ⟨p2, ptl3⟩
  · -- nPos = 2
    rcases ntl with _ | ⟨n1, ntl2⟩
    · -- nNeg = 1, so nZero = 1
      have hzlen : (zeroList (nv, d) t).length = 1 := by
        rw [hp, hn] at hlen
        simp at hlen
        omega
      rcases hzl : zeroList (nv, d) t with _ | ⟨z0, _ | ⟨z1, ztl⟩⟩
      · rw [hzl] at hzlen; simp at hzlen
      · exact conserve_caseC nv d t p0 p1 n0 z0 hp hn hzl
      · rw [hzl] at hzlen; simp at hzlen
    rcases ntl2 with _ | ⟨n2, ntl3⟩
    · -- nNeg = 2, so nZero = 0
      have hzl : zeroList (nv, d) t = [] := by
        rw [hp, hn] at hlen
        simp only [List.length_cons, List.length_nil] at hlen
        exact List.length_eq_zero.mp (by omega)
      exact conserve_caseB nv d t p0 p1 n0 n1 hp hn hzl
    · rw [hp, hn] at hlen
      simp only [List.length_cons, List.length_nil] at hlen
      omega
  rcases ptl3 with _ | ⟨p3, ptl4⟩
  · -- nPos = 3
    rcases ntl with _ | ⟨n1, ntl2⟩
    · have hzl : zeroList (nv, d) t = [] := by
        rw [hp, hn] at hlen
        simp only [List.length_cons, List.length_nil] at hlen
        exact List.length_eq_zero.mp (by omega)
      exact conserve_caseA nv d t p0 p1 p2 n0 hp hn hzl
    · rw [hp, hn] at hlen
      simp only [List.length_cons, List.length_nil] at hlen
      omega
  · rw [hp, hn] at hlen
    simp only [List.length_cons, List.length_nil] at hlen
    omega

/-! ## A shape eliminator for the classification lists -/

theorem split_shape_cases (pl : hPlane) (t : Tetrahedron) {motive : Prop}
    (hEmptyNeg : negList pl t = [] → motive)
    (hEmptyPos : negList pl t ≠ [] → posList pl t = [] → motive)
    (hA : ∀ p0 p1 p2 n0, posList pl t = [p0, p1, p2] →
      negList pl t = [n0] → zeroList pl t = [] → motive)
    (hB : ∀ p0 p1 n0 n1, posList pl t = [p0, p1] →
      negList pl t = [n0, n1] → zeroList pl t = [] → motive)
    (hC : ∀ p0 p1 n0 z0, posList pl t = [p0, p1] →
      negList pl t = [n0] → zeroList pl t = [z0] → motive)
    (hD : ∀ p0 n0 n1 n2, posList pl t = [p0] →
      negList pl t = [n0, n1, n2] → zeroList pl t = [] → motive)
    (hE : ∀ p0 n0 n1 z0, posList pl t = [p0] →
      negList pl t = [n0, n1] → zeroList pl t = [z0] → motive)
    (hF : ∀ p0 n0 z0 z1, posList pl t = [p0] →
      negList pl t = [n0] → zeroList pl t = [z0, z1] → motive) : motive := by
  have hlen := lists_length pl t
  rcases hn : negList pl t with _ | ⟨n0, ntl⟩
  · exact hEmptyNeg hn
  rcases hp : posList pl t with _ | ⟨p0, ptl⟩
  · exact hEmptyPos (by rw [hn]; simp) hp
  rcases ptl with _ | ⟨p1, ptl2⟩
  · rcases ntl with _ | ⟨n1, ntl2⟩
    · have hzlen : (zeroList pl t).length = 2 := by
        rw [hp, hn] at hlen
        simp only [List.length_cons, List.length_nil] at hlen
        omega
      rcases hzl : zeroList pl t with _ | ⟨z0, _ | ⟨z1, _ | ⟨z2, ztl⟩⟩⟩
      · rw [hzl] at hzlen; simp at hzlen
      · rw [hzl] at hzlen; simp at hzlen
      · exact hF p0 n0 z0 z1 hp hn hzl
      · rw [hzl] at hzlen; simp at hzlen
    rcases ntl2 with _ | ⟨n2, ntl3⟩
    · have hzlen : (zeroList pl t).length = 1 := by
        rw [hp, hn] at hlen
        simp only [List.length_cons, List.length_nil] at hlen
        omega
      rcases hzl : zeroList pl t with _ | ⟨z0, _ | ⟨z1, ztl⟩⟩
      · rw [hzl] at hzlen; simp at hzlen
      · exact hE p0 n0 n1 z0 hp hn hzl
      · rw [hzl] at hzlen; simp at hzlen
    rcases ntl3 with _ | ⟨n3, ntl4⟩
    · have hzl : zeroList pl t = [] := by
        rw [hp, hn] at hlen
        simp only [List.length_cons, List.length_nil] at hlen
        exact List.length_eq_zero.mp (by omega)
      exact hD p0 n0 n1 n2 hp hn hzl
    · rw [hp, hn] at hlen
      simp only [List.length_cons, List.length_nil] at hlen
      omega
  rcases ptl2 with _ | ⟨p2, ptl3⟩
  · rcases ntl with _ | ⟨n1, ntl2⟩
    · have hzlen : (zeroList pl t).length = 1 := by
        rw [hp, hn] at hlen
        simp only [List.length_cons, List.length_nil] at hlen
        omega
      rcases hzl : zeroList pl t with _ | ⟨z0, _ | ⟨z1, ztl⟩⟩
      · rw [hzl] at hzlen; simp at hzlen
      · exact hC p0 p1 n0 z0 hp hn hzl
      · rw [hzl] at hzlen; simp at hzlen
    rcases ntl2 with _ | ⟨n2, ntl3⟩
    · have hzl : zeroList pl t = [] := by
        rw [hp, hn] at hlen
        simp only [List.length_cons, List.length_nil] at hlen
        exact List.length_eq_zero.mp (by omega)
      exact hB p0 p1 n0 n1 hp hn hzl
    · rw [hp, hn] at hlen
      simp only [List.length_cons, List.length_nil] at hlen
      omega
  rcases ptl3 with _ | ⟨p3, ptl4⟩
  · rcases ntl with _ | ⟨n1, ntl2⟩
    · have hzl : zeroList pl t = [] := by
        rw [hp, hn] at hlen
        simp only [List.length_cons, List.length_nil] at hlen
        exact List.length_eq_zero.mp (by omega)
      exact hA p0 p1 p2 n0 hp hn hzl
    · rw [hp, hn] at hlen
      simp only [List.length_cons, List.length_nil] at hlen
      omega
  · rw [hp, hn] at hlen
    simp only [List.length_cons, List.length_nil] at hlen
    omega

theorem split_append (pl : hPlane) (t : Tetrahedron) (buf : List Tetrahedron) :
    splitAndDecompose pl t buf = buf ++ splitAndDecompose pl t [] := by
  refine split_shape_cases pl t ?_ ?_ ?_ ?_ ?_ ?_ ?_ ?_
  · intro hn
    rw [split_negEmpty pl t buf hn, split_negEmpty pl t [] hn]
    simp
  · intro hn hp
    rw [split_posEmpty pl t buf hn hp, split_posEmpty pl t [] hn hp]
    simp
  · intro p0 p1 p2 n0 hp hn hz
    rw [split_caseA pl t buf p0 p1 p2 n0 hp hn hz,
      split_caseA pl t [] p0 p1 p2 n0 hp hn hz]
    simp
  · intro p0 p1 n0 n1 hp hn hz
    rw [split_caseB pl t buf p0 p1 n0 n1 hp hn hz,
      split_caseB pl t [] p0 p1 n0 n1 hp hn hz]
    simp
  · intro p0 p1 n0 z0 hp hn hz
    rw [split_caseC pl t buf p0 p1 n0 z0 hp hn hz,
      split_caseC pl t [] p0 p1 n0 z0 hp hn hz]
    simp
  · intro p0 n0 n1 n2 hp hn hz
    rw [split_caseD pl t buf p0 n0 n1 n2 hp hn hz,
      split_caseD pl t [] p0 n0 n1 n2 hp hn hz]
    simp
  · intro p0 n0 n1 z0 hp hn hz
    rw [split_caseE pl t buf p0 n0 n1 z0 hp hn hz,
      split_caseE pl t [] p0 n0 n1 z0 hp hn hz]
    simp
  · intro p0 n0 z0 z1 hp hn hz
    rw [split_caseF pl t buf p0 n0 z0 z1 hp hn hz,
      split_caseF pl t [] p0 n0 z0 z1 hp hn hz]
    simp

/-! ## Claim theorems -/

/-- C9: `decomposeCell` clears the output buffer at entry (its result does not
depend on the buffer contents passed in), while `splitAndDecompose` only
appends: the prior buffer is a prefix of the result, element for element, and
the new tetrahedra follow it. -/
theorem C9_buffer_discipline :
    (∀ (mesh : polyMesh) (points : pointField) (cellIndex : Nat) (xC : Vec3)
        (buf : List Tetrahedron) (xT : Vec3),
      decomposeCell mesh points cellIndex xC buf xT
        = decomposeCell mesh points cellIndex xC [] xT)
    ∧ (∀ (pl : hPlane) (t : Tetrahedron) (buf : List Tetrahedron),
      splitAndDecompose pl t buf = buf ++ splitAndDecompose pl t []) :=
  ⟨fun _ _ _ _ _ _ => rfl, split_append⟩

/-- Evaluation helper: the four slot indices in classification order. -/
theorem finRange_four : List.finRange 4 = [0, 1, 2, 3] := by decide

/-- C3 counterexample: for a (degenerate) tetrahedron lying entirely on the
plane `z = 0`, every vertex classifies as zero, so `nPos = 0`; the claim then
demands that the original tetrahedron be appended, but the `nNeg == 0` early
exit fires first and nothing is appended. -/
theorem C3_counterexample :
    posList (Vec3.mk 0 0 1, (0 : ℚ))
        ![Vec3.mk 0 0 0, Vec3.mk 1 0 0, Vec3.mk 0 1 0, Vec3.mk 1 1 0] = []
    ∧ splitAndDecompose (Vec3.mk 0 0 1, (0 : ℚ))
        ![Vec3.mk 0 0 0, Vec3.mk 1 0 0, Vec3.mk 0 1 0, Vec3.mk 1 1 0] [] = []
    ∧ splitAndDecompose (Vec3.mk 0 0 1, (0 : ℚ))
        ![Vec3.mk 0 0 0, Vec3.mk 1 0 0, Vec3.mk 0 1 0, Vec3.mk 1 1 0] []
      ≠ [![Vec3.mk 0 0 0, Vec3.mk 1 0 0, Vec3.mk 0 1 0, Vec3.mk 1 1 0]] := by
  have hneg : negList (Vec3.mk 0 0 1, (0 : ℚ))
      ![Vec3.mk 0 0 0, Vec3.mk 1 0 0, Vec3.mk 0 1 0, Vec3.mk 1 1 0] = [] := by
    norm_num [negList, planeDists, dot, finRange_four, List.filter]
  have hpos : posList (Vec3.mk 0 0 1, (0 : ℚ))
      ![Vec3.mk 0 0 0, Vec3.mk 1 0 0, Vec3.mk 0 1 0, Vec3.mk 1 1 0] = [] := by
    norm_num [posList, planeDists, dot, finRange_four, List.filter]
  have hsplit := split_negEmpty (Vec3.mk 0 0 1, (0 : ℚ))
    ![Vec3.mk 0 0 0, Vec3.mk 1 0 0, Vec3.mk 0 1 0, Vec3.mk 1 1 0] [] hneg
  exact ⟨hpos, hsplit, by rw [hsplit]; simp⟩

/-- C3 (amended): when `nNeg = 0` the call appends nothing, and when
`nPos = 0` while at least one vertex is strictly negative the call appends
exactly the original tetrahedron (on-plane vertices included); the second
clause needs `nNeg ≥ 1` because the `nNeg == 0` exit has priority. -/
theorem C3_trivial_cases (pl : hPlane) (t : Tetrahedron)
    (buf : List Tetrahedron) :
    (negList pl t = [] → splitAndDecompose pl t buf = buf)
    ∧ (posList pl t = [] → negList pl t ≠ [] →
        splitAndDecompose pl t buf = buf ++ [t]) :=
  ⟨split_negEmpty pl t buf, fun hp hn => split_posEmpty pl t buf hn hp⟩

/-- C3 witness: a tetrahedron strictly above the plane `z = 1` appends
nothing; one below with its base on the plane appends itself. -/
theorem C3_trivial_cases_witness :
    (negList (Vec3.mk 0 0 1, (1 : ℚ))
        ![Vec3.mk 0 0 2, Vec3.mk 1 0 2, Vec3.mk 0 1 2, Vec3.mk 0 0 3] = []
      ∧ splitAndDecompose (Vec3.mk 0 0 1, (1 : ℚ))
        ![Vec3.mk 0 0 2, Vec3.mk 1 0 2, Vec3.mk 0 1 2, Vec3.mk 0 0 3] [] = [])
    ∧ (posList (Vec3.mk 0 0 1, (1 : ℚ))
        ![Vec3.mk 0 0 1, Vec3.mk 1 0 1, Vec3.mk 0 1 1, Vec3.mk 0 0 0] = []
      ∧ negList (Vec3.mk 0 0 1, (1 : ℚ))
        ![Vec3.mk 0 0 1, Vec3.mk 1 0 1, Vec3.mk 0 1 1, Vec3.mk 0 0 0] ≠ []
      ∧ splitAndDecompose (Vec3.mk 0 0 1, (1 : ℚ))
          ![Vec3.mk 0 0 1, Vec3.mk 1 0 1, Vec3.mk 0 1 1, Vec3.mk 0 0 0] []
        = [] ++ [![Vec3.mk 0 0 1, Vec3.mk 1 0 1, Vec3.mk 0 1 1, Vec3.mk 0 0 0]]) := by
  have h1 : negList (Vec3.mk 0 0 1, (1 : ℚ))
      ![Vec3.mk 0 0 2, Vec3.mk 1 0 2, Vec3.mk 0 1 2, Vec3.mk 0 0 3] = [] := by
    norm_num [negList, planeDists, dot, finRange_four, List.filter]
  have h2 : posList (Vec3.mk 0 0 1, (1 : ℚ))
      ![Vec3.mk 0 0 1, Vec3.mk 1 0 1, Vec3.mk 0 1 1, Vec3.mk 0 0 0] = [] := by
    norm_num [posList, planeDists, dot, finRange_four, List.filter]
  have h3 : negList (Vec3.mk 0 0 1, (1 : ℚ))
      ![Vec3.mk 0 0 1, Vec3.mk 1 0 1, Vec3.mk 0 1 1, Vec3.mk 0 0 0] = [3] := by
    norm_num [negList, planeDists, dot, finRange_four, List.filter] <;> decide
  refine ⟨⟨h1, (C3_trivial_cases (Vec3.mk 0 0 1, (1 : ℚ))
      ![Vec3.mk 0 0 2, Vec3.mk 1 0 2, Vec3.mk 0 1 2, Vec3.mk 0 0 3] []).1 h1⟩,
    h2, by rw [h3]; simp,
    (C3_trivial_cases (Vec3.mk 0 0 1, (1 : ℚ))
      ![Vec3.mk 0 0 1, Vec3.mk 1 0 1, Vec3.mk 0 1 1, Vec3.mk 0 0 0] []).2 h2
      (by rw [h3]; simp)⟩

/-- C2: in the `+ + − −` case (two positive, two negative vertices) exactly
three tetrahedra are appended, in order: the input tetrahedron with
`t[pos[0]]` replaced by `I(P0, N1)` and `t[pos[1]]` by `I(P1, N0)`; then
`(N1, I(P1, N1), I(P0, N1), I(P1, N0))`; then
`(N0, I(P0, N0), I(P1, N0), I(P0, N1))`; each intersection given by the
`w0 * p + w1 * q` barycentric formula. -/
theorem C2_caseB_structure (pl : hPlane) (t : Tetrahedron)
    (buf : List Tetrahedron) (p0 p1 n0 n1 : Fin 4)
    (hp : posList pl t = [p0, p1]) (hn : negList pl t = [n0, n1]) :
    splitAndDecompose pl t buf = buf ++
      [Function.update (Function.update t
         p0 (intPoint (planeDists pl t) t p0 n1))
         p1 (intPoint (planeDists pl t) t p1 n0),
       ![t n1, intPoint (planeDists pl t) t p1 n1,
         intPoint (planeDists pl t) t p0 n1,
         intPoint (planeDists pl t) t p1 n0],
       ![t n0, intPoint (planeDists pl t) t p0 n0,
         intPoint (planeDists pl t) t p1 n0,
         intPoint (planeDists pl t) t p0 n1]] := by
  have hlen := lists_length pl t
  rw [hp, hn] at hlen
  simp only [List.length_cons, List.length_nil] at hlen
  have hz : zeroList pl t = [] := List.length_eq_zero.mp (by omega)
  exact split_caseB pl t buf p0 p1 n0 n1 hp hn hz

/-- C2 witness: a tetrahedron with two vertices above and two below the plane
`z = 0`; the classification lists are `[0, 1]` and `[2, 3]` and the theorem
instance yields the three appended tetrahedra. -/
theorem C2_caseB_structure_witness :
    posList (Vec3.mk 0 0 1, (0 : ℚ))
        ![Vec3.mk 0 0 1, Vec3.mk 2 0 1, Vec3.mk 0 3 (-1), Vec3.mk 1 1 (-1)]
      = [0, 1]
    ∧ negList (Vec3.mk 0 0 1, (0 : ℚ))
        ![Vec3.mk 0 0 1, Vec3.mk 2 0 1, Vec3.mk 0 3 (-1), Vec3.mk 1 1 (-1)]
      = [2, 3]
    ∧ splitAndDecompose (Vec3.mk 0 0 1, (0 : ℚ))
        ![Vec3.mk 0 0 1, Vec3.mk 2 0 1, Vec3.mk 0 3 (-1), Vec3.mk 1 1 (-1)] []
      = [] ++
      [Function.update (Function.update
         ![Vec3.mk 0 0 1, Vec3.mk 2 0 1, Vec3.mk 0 3 (-1), Vec3.mk 1 1 (-1)]
         0 (intPoint (planeDists (Vec3.mk 0 0 1, (0 : ℚ))
             ![Vec3.mk 0 0 1, Vec3.mk 2 0 1, Vec3.mk 0 3 (-1), Vec3.mk 1 1 (-1)])
           ![Vec3.mk 0 0 1, Vec3.mk 2 0 1, Vec3.mk 0 3 (-1), Vec3.mk 1 1 (-1)] 0 3))
         1 (intPoint (planeDists (Vec3.mk 0 0 1, (0 : ℚ))
             ![Vec3.mk 0 0 1, Vec3.mk 2 0 1, Vec3.mk 0 3 (-1), Vec3.mk 1 1 (-1)])
           ![Vec3.mk 0 0 1, Vec3.mk 2 0 1, Vec3.mk 0 3 (-1), Vec3.mk 1 1 (-1)] 1 2),
       ![![Vec3.mk 0 0 1, Vec3.mk 2 0 1, Vec3.mk 0 3 (-1), Vec3.mk 1 1 (-1)] 3,
         intPoint (planeDists (Vec3.mk 0 0 1, (0 : ℚ))
             ![Vec3.mk 0 0 1, Vec3.mk 2 0 1, Vec3.mk 0 3 (-1), Vec3.mk 1 1 (-1)])
           ![Vec3.mk 0 0 1, Vec3.mk 2 0 1, Vec3.mk 0 3 (-1), Vec3.mk 1 1 (-1)] 1 3,
         intPoint (planeDists (Vec3.mk 0 0 1, (0 : ℚ))
             ![Vec3.mk 0 0 1, Vec3.mk 2 0 1, Vec3.mk 0 3 (-1), Vec3.mk 1 1 (-1)])
           ![Vec3.mk 0 0 1, Vec3.mk 2 0 1, Vec3.mk 0 3 (-1), Vec3.mk 1 1 (-1)] 0 3,
         intPoint (planeDists (Vec3.mk 0 0 1, (0 : ℚ))
             ![Vec3.mk 0 0 1, Vec3.mk 2 0 1, Vec3.mk 0 3 (-1), Vec3.mk 1 1 (-1)])
           ![Vec3.mk 0 0 1, Vec3.mk 2 0 1, Vec3.mk 0 3 (-1), Vec3.mk 1 1 (-1)] 1 2],
       ![![Vec3.mk 0 0 1, Vec3.mk 2 0 1, Vec3.mk 0 3 (-1), Vec3.mk 1 1 (-1)] 2,
         intPoint (planeDists (Vec3.mk 0 0 1, (0 : ℚ))
             ![Vec3.mk 0 0 1, Vec3.mk 2 0 1, Vec3.mk 0 3 (-1), Vec3.mk 1 1 (-1)])
           ![Vec3.mk 0 0 1, Vec3.mk 2 0 1, Vec3.mk 0 3 (-1), Vec3.mk 1 1 (-1)] 0 2,
         intPoint (planeDists (Vec3.mk 0 0 1, (0 : ℚ))
             ![Vec3.mk 0 0 1, Vec3.mk 2 0 1, Vec3.mk 0 3 (-1), Vec3.mk 1 1 (-1)])
           ![Vec3.mk 0 0 1, Vec3.mk 2 0 1, Vec3.mk 0 3 (-1), Vec3.mk 1 1 (-1)] 1 2,
         intPoint (planeDists (Vec3.mk 0 0 1, (0 : ℚ))
             ![Vec3.mk 0 0 1, Vec3.mk 2 0 1, Vec3.mk 0 3 (-1), Vec3.mk 1 1 (-1)])
           ![Vec3.mk 0 0 1, Vec3.mk 2 0 1, Vec3.mk 0 3 (-1), Vec3.mk 1 1 (-1)] 0 3]] := by
  have hp : posList (Vec3.mk 0 0 1, (0 : ℚ))
      ![Vec3.mk 0 0 1, Vec3.mk 2 0 1, Vec3.mk 0 3 (-1), Vec3.mk 1 1 (-1)]
      = [0, 1] := by
    norm_num [posList, planeDists, dot, finRange_four, List.filter] <;> decide
  have hn : negList (Vec3.mk 0 0 1, (0 : ℚ))
      ![Vec3.mk 0 0 1, Vec3.mk 2 0 1, Vec3.mk 0 3 (-1), Vec3.mk 1 1 (-1)]
      = [2, 3] := by
    norm_num [negList, planeDists, dot, finRange_four, List.filter] <;> decide
  exact ⟨hp, hn, C2_caseB_structure (Vec3.mk 0 0 1, (0 : ℚ))
    ![Vec3.mk 0 0 1, Vec3.mk 2 0 1, Vec3.mk 0 3 (-1), Vec3.mk 1 1 (-1)] []
    0 1 2 3 hp hn⟩

/-- C4: whenever a vertex pair is drawn from the positive and the negative
classification lists (which is the case at every division site of
`splitAndDecompose`), the divisor `C[pos] - C[neg]` is strictly positive, and
the two barycentric weights sum to one and lie strictly between zero and
one. -/
theorem C4_division_safety (pl : hPlane) (t : Tetrahedron) (p n : Fin 4)
    (hp : p ∈ posList pl t) (hn : n ∈ negList pl t) :
    0 < planeDists pl t p - planeDists pl t n
    ∧ w0 (planeDists pl t) p n + w1 (planeDists pl t) p n = 1
    ∧ 0 < w0 (planeDists pl t) p n ∧ w0 (planeDists pl t) p n < 1
    ∧ 0 < w1 (planeDists pl t) p n ∧ w1 (planeDists pl t) p n < 1 := by
  have hp2 := mem_posList.mp hp
  have hn2 := mem_negList.mp hn
  have wf := weight_facts (planeDists pl t) p n hp2 hn2
  exact ⟨by linarith, wf.2.2.2.2, wf.1, wf.2.1, wf.2.2.1, wf.2.2.2.1⟩

/-- C4 witness: the unit tetrahedron against the plane `2x = 1` has vertex 1
positive and vertex 0 negative. -/
theorem C4_division_safety_witness :
    (1 : Fin 4) ∈ posList (Vec3.mk 2 0 0, (1 : ℚ))
      ![Vec3.mk 0 0 0, Vec3.mk 1 0 0, Vec3.mk 0 1 0, Vec3.mk 0 0 1]
    ∧ (0 : Fin 4) ∈ negList (Vec3.mk 2 0 0, (1 : ℚ))
      ![Vec3.mk 0 0 0, Vec3.mk 1 0 0, Vec3.mk 0 1 0, Vec3.mk 0 0 1]
    ∧ (0 < planeDists (Vec3.mk 2 0 0, (1 : ℚ))
        ![Vec3.mk 0 0 0, Vec3.mk 1 0 0, Vec3.mk 0 1 0, Vec3.mk 0 0 1] 1
          - planeDists (Vec3.mk 2 0 0, (1 : ℚ))
        ![Vec3.mk 0 0 0, Vec3.mk 1 0 0, Vec3.mk 0 1 0, Vec3.mk 0 0 1] 0
      ∧ w0 (planeDists (Vec3.mk 2 0 0, (1 : ℚ))
          ![Vec3.mk 0 0 0, Vec3.mk 1 0 0, Vec3.mk 0 1 0, Vec3.mk 0 0 1]) 1 0
        + w1 (planeDists (Vec3.mk 2 0 0, (1 : ℚ))
          ![Vec3.mk 0 0 0, Vec3.mk 1 0 0, Vec3.mk 0 1 0, Vec3.mk 0 0 1]) 1 0 = 1
      ∧ 0 < w0 (planeDists (Vec3.mk 2 0 0, (1 : ℚ))
          ![Vec3.mk 0 0 0, Vec3.mk 1 0 0, Vec3.mk 0 1 0, Vec3.mk 0 0 1]) 1 0
      ∧ w0 (planeDists (Vec3.mk 2 0 0, (1 : ℚ))
          ![Vec3.mk 0 0 0, Vec3.mk 1 0 0, Vec3.mk 0 1 0, Vec3.mk 0 0 1]) 1 0 < 1
      ∧ 0 < w1 (planeDists (Vec3.mk 2 0 0, (1 : ℚ))
          ![Vec3.mk 0 0 0, Vec3.mk 1 0 0, Vec3.mk 0 1 0, Vec3.mk 0 0 1]) 1 0
      ∧ w1 (planeDists (Vec3.mk 2 0 0, (1 : ℚ))
          ![Vec3.mk 0 0 0, Vec3.mk 1 0 0, Vec3.mk 0 1 0, Vec3.mk 0 0 1]) 1 0 < 1) := by
  have hp : (1 : Fin 4) ∈ posList (Vec3.mk 2 0 0, (1 : ℚ))
      ![Vec3.mk 0 0 0, Vec3.mk 1 0 0, Vec3.mk 0 1 0, Vec3.mk 0 0 1] := by
    rw [mem_posList]
    norm_num [planeDists, dot]
  have hn : (0 : Fin 4) ∈ negList (Vec3.mk 2 0 0, (1 : ℚ))
      ![Vec3.mk 0 0 0, Vec3.mk 1 0 0, Vec3.mk 0 1 0, Vec3.mk 0 0 1] := by
    rw [mem_negList]
    norm_num [planeDists, dot]
  exact ⟨hp, hn,
    C4_division_safety (Vec3.mk 2 0 0, (1 : ℚ))
      ![Vec3.mk 0 0 0, Vec3.mk 1 0 0, Vec3.mk 0 1 0, Vec3.mk 0 0 1] 1 0 hp hn⟩

/-- C5: `getVolumeAndCentre` returns the sum of unsigned tetrahedron volumes
`|det|/6`, and the volume-weighted mean of the per-tet vertex centroids
divided by `V + VSMALL` with `VSMALL` a strictly positive floor; on the empty
list it returns volume 0 and centre 0. -/
theorem C5_volume_centre (tets : List Tetrahedron) :
    (getVolumeAndCentre tets).1 = (tets.map tetVol).sum
    ∧ (getVolumeAndCentre tets).2
        = ((tets.map tetVol).sum + VSMALL)⁻¹
            • (tets.map fun t => tetVol t • tetCentroid t).sum
    ∧ 0 < VSMALL
    ∧ getVolumeAndCentre [] = (0, 0) := by
  refine ⟨getVolumeAndCentre_fst tets, getVolumeAndCentre_snd tets, ?_, ?_⟩
  · rw [VSMALL]
    positivity
  · simp [getVolumeAndCentre]

/-! ## Half-space membership of the clipped pieces -/

theorem dot_combo (a b : ℚ) (x y nv : Vec3) :
    dot (a • x + b • y) nv = a * dot x nv + b * dot y nv := by
  simp [dot]
  ring

theorem dist_nonpos_dot {nv : Vec3} {d : ℚ} {t : Tetrahedron} {j : Fin 4}
    (h : planeDists (nv, d) t j ≤ 0) : dot (t j) nv ≤ d := by
  simp only [planeDists] at h
  linarith [h]

theorem not_pos_nonpos {pl : hPlane} {t : Tetrahedron} {i : Fin 4}
    (h : i ∉ posList pl t) : planeDists pl t i ≤ 0 :=
  not_lt.mp (fun hc => h (mem_posList.mpr hc))

theorem dot_intPoint (nv : Vec3) (d : ℚ) (t : Tetrahedron) (p n : Fin 4)
    (hp : 0 < planeDists (nv, d) t p) (hn : planeDists (nv, d) t n < 0) :
    dot (intPoint (planeDists (nv, d) t) t p n) nv = d := by
  have hd : planeDists (nv, d) t p - planeDists (nv, d) t n ≠ 0 := by linarith
  have e1 : dot (t p) nv = planeDists (nv, d) t p + d := by
    simp [planeDists]
  have e2 : dot (t n) nv = planeDists (nv, d) t n + d := by
    simp [planeDists]
  rw [intPoint, dot_combo, e1, e2, w0, w1]
  field_simp
  ring

theorem split_halfspace_aux (nv : Vec3) (d : ℚ) (t : Tetrahedron) :
    (∀ T ∈ splitAndDecompose (nv, d) t [], ∀ i : Fin 4, dot (T i) nv ≤ d)
    ∧ (splitAndDecompose (nv, d) t []).length ≤ 3 := by
  refine split_shape_cases (nv, d) t ?_ ?_ ?_ ?_ ?_ ?_ ?_ ?_
  · intro hn
    rw [split_negEmpty _ _ _ hn]
    exact ⟨by simp, by simp⟩
  · intro hn hp
    rw [split_posEmpty _ _ _ hn hp]
    refine ⟨?_, by simp⟩
    intro T hT i
    simp only [List.nil_append, List.mem_singleton] at hT
    subst hT
    exact dist_nonpos_dot (not_pos_nonpos (by rw [hp]; simp))
  · intro p0 p1 p2 n0 hp hn hz
    rw [split_caseA _ _ _ _ _ _ _ hp hn hz]
    have hp0 : 0 < planeDists (nv, d) t p0 := mem_posList.mp (by rw [hp]; simp)
    have hp1 : 0 < planeDists (nv, d) t p1 := mem_posList.mp (by rw [hp]; simp)
    have hp2 : 0 < planeDists (nv, d) t p2 := mem_posList.mp (by rw [hp]; simp)
    have hn0 : planeDists (nv, d) t n0 < 0 := mem_negList.mp (by rw [hn]; simp)
    have hi0 := dot_intPoint nv d t p0 n0 hp0 hn0
    have hi1 := dot_intPoint nv d t p1 n0 hp1 hn0
    have hi2 := dot_intPoint nv d t p2 n0 hp2 hn0
    refine ⟨?_, by simp⟩
    intro T hT i
    simp only [List.nil_append, List.mem_singleton] at hT
    subst hT
    by_cases h2 : i = p2
    · subst h2
      rw [Function.update_same]
      exact le_of_eq hi2
    rw [Function.update_noteq h2]
    by_cases h1 : i = p1
    · subst h1
      rw [Function.update_same]
      exact le_of_eq hi1
    rw [Function.update_noteq h1]
    by_cases h0 : i = p0
    · subst h0
      rw [Function.update_same]
      exact le_of_eq hi0
    rw [Function.update_noteq h0]
    exact dist_nonpos_dot (not_pos_nonpos (by rw [hp]; simp [h0, h1, h2]))
  · intro p0 p1 n0 n1 hp hn hz
    rw [split_caseB _ _ _ _ _ _ _ hp hn hz]
    have hp0 : 0 < planeDists (nv, d) t p0 := mem_posList.mp (by rw [hp]; simp)
    have hp1 : 0 < planeDists (nv, d) t p1 := mem_posList.mp (by rw [hp]; simp)
    have hn0 : planeDists (nv, d) t n0 < 0 := mem_negList.mp (by rw [hn]; simp)
    have hn1 : planeDists (nv, d) t n1 < 0 := mem_negList.mp (by rw [hn]; simp)
    have hi00 := dot_intPoint nv d t p0 n0 hp0 hn0
    have hi10 := dot_intPoint nv d t p1 n0 hp1 hn0
    have hi01 := dot_intPoint nv d t p0 n1 hp0 hn1
    have hi11 := dot_intPoint nv d t p1 n1 hp1 hn1
    have hdn0 : dot (t n0) nv ≤ d := dist_nonpos_dot (le_of_lt hn0)
    have hdn1 : dot (t n1) nv ≤ d := dist_nonpos_dot (le_of_lt hn1)
    refine ⟨?_, by simp⟩
    intro T hT i
    simp only [List.nil_append, List.mem_cons, List.mem_singleton,
      List.not_mem_nil, or_false] at hT
    rcases hT with rfl | rfl | rfl
    · by_cases h1 : i = p1
      · subst h1
        rw [Function.update_same]
        exact le_of_eq hi10
      rw [Function.update_noteq h1]
      by_cases h0 : i = p0
      · subst h0
        rw [Function.update_same]
        exact le_of_eq hi01
      rw [Function.update_noteq h0]
      exact dist_nonpos_dot (not_pos_nonpos (by rw [hp]; simp [h0, h1]))
    · fin_cases i <;>
        simp only [Matrix.cons_val_zero, Matrix.cons_val_one,
          Matrix.cons_val_two, Matrix.cons_val_three, Matrix.head_cons,
          Matrix.tail_cons] <;>
        first
          | exact hdn1
          | exact le_of_eq hi11
          | exact le_of_eq hi01
          | exact le_of_eq hi10
    · fin_cases i <;>
        simp only [Matrix.cons_val_zero, Matrix.cons_val_one,
          Matrix.cons_val_two, Matrix.cons_val_three, Matrix.head_cons,
          Matrix.tail_cons] <;>
        first
          | exact hdn0
          | exact le_of_eq hi00
          | exact le_of_eq hi10
          | exact le_of_eq hi01
  · intro p0 p1 n0 z0 hp hn hz
    rw [split_caseC _ _ _ _ _ _ _ hp hn hz]
    have hp0 : 0 < planeDists (nv, d) t p0 := mem_posList.mp (by rw [hp]; simp)
    have hp1 : 0 < planeDists (nv, d) t p1 := mem_posList.mp (by rw [hp]; simp)
    have hn0 : planeDists (nv, d) t n0 < 0 := mem_negList.mp (by rw [hn]; simp)
    have hi0 := dot_intPoint nv d t p0 n0 hp0 hn0
    have hi1 := dot_intPoint nv d t p1 n0 hp1 hn0
    refine ⟨?_, by simp⟩
    intro T hT i
    simp only [List.nil_append, List.mem_singleton] at hT
    subst hT
    by_cases h1 : i = p1
    · subst h1
      rw [Function.update_same]
      exact le_of_eq hi1
    rw [Function.update_noteq h1]
    by_cases h0 : i = p0
    · subst h0
      rw [Function.update_same]
      exact le_of_eq hi0
    rw [Function.update_noteq h0]
    exact dist_nonpos_dot (not_pos_nonpos (by rw [hp]; simp [h0, h1]))
  · intro p0 n0 n1 n2 hp hn hz
    rw [split_caseD _ _ _ _ _ _ _ hp hn hz]
    have hp0 : 0 < planeDists (nv, d) t p0 := mem_posList.mp (by rw [hp]; simp)
    have hn0 : planeDists (nv, d) t n0 < 0 := mem_negList.mp (by rw [hn]; simp)
    have hn1 : planeDists (nv, d) t n1 < 0 := mem_negList.mp (by rw [hn]; simp)
    have hn2 : planeDists (nv, d) t n2 < 0 := mem_negList.mp (by rw [hn]; simp)
    have hi0 := dot_intPoint nv d t p0 n0 hp0 hn0
    have hi1 := dot_intPoint nv d t p0 n1 hp0 hn1
    have hi2 := dot_intPoint nv d t p0 n2 hp0 hn2
    have hdn1 : dot (t n1) nv ≤ d := dist_nonpos_dot (le_of_lt hn1)
    have hdn2 : dot (t n2) nv ≤ d := dist_nonpos_dot (le_of_lt hn2)
    refine ⟨?_, by simp⟩
    intro T hT i
    simp only [List.nil_append, List.mem_cons, List.mem_singleton,
      List.not_mem_nil, or_false] at hT
    rcases hT with rfl | rfl | rfl
    · by_cases h0 : i = p0
      · subst h0
        rw [Function.update_same]
        exact le_of_eq hi0
      rw [Function.update_noteq h0]
      exact dist_nonpos_dot (not_pos_nonpos (by rw [hp]; simp [h0]))
    · fin_cases i <;>
        simp only [Matrix.cons_val_zero, Matrix.cons_val_one,
          Matrix.cons_val_two, Matrix.cons_val_three, Matrix.head_cons,
          Matrix.tail_cons] <;>
        first
          | exact hdn1
          | exact hdn2
          | exact le_of_eq hi0
          | exact le_of_eq hi1
    · fin_cases i <;>
        simp only [Matrix.cons_val_zero, Matrix.cons_val_one,
          Matrix.cons_val_two, Matrix.cons_val_three, Matrix.head_cons,
          Matrix.tail_cons] <;>
        first
          | exact hdn2
          | exact le_of_eq hi0
          | exact le_of_eq hi1
          | exact le_of_eq hi2
  · intro p0 n0 n1 z0 hp hn hz
    rw [split_caseE _ _ _ _ _ _ _ hp hn hz]
    have hp0 : 0 < planeDists (nv, d) t p0 := mem_posList.mp (by rw [hp]; simp)
    have hn0 : planeDists (nv, d) t n0 < 0 := mem_negList.mp (by rw [hn]; simp)
    have hn1 : planeDists (nv, d) t n1 < 0 := mem_negList.mp (by rw [hn]; simp)
    have hz0 : planeDists (nv, d) t z0 = 0 := mem_zeroList.mp (by rw [hz]; simp)
    have hi0 := dot_intPoint nv d t p0 n0 hp0 hn0
    have hi1 := dot_intPoint nv d t p0 n1 hp0 hn1
    have hdn1 : dot (t n1) nv ≤ d := dist_nonpos_dot (le_of_lt hn1)
    have hdz0 : dot (t z0) nv ≤ d := dist_nonpos_dot (le_of_eq hz0)
    refine ⟨?_, by simp⟩
    intro T hT i
    simp only [List.nil_append, List.mem_cons, List.mem_singleton,
      List.not_mem_nil, or_false] at hT
    rcases hT with rfl | rfl
    · by_cases h0 : i = p0
      · subst h0
        rw [Function.update_same]
        exact le_of_eq hi0
      rw [Function.update_noteq h0]
      exact dist_nonpos_dot (not_pos_nonpos (by rw [hp]; simp [h0]))
    · fin_cases i <;>
        simp only [Matrix.cons_val_zero, Matrix.cons_val_one,
          Matrix.cons_val_two, Matrix.cons_val_three, Matrix.head_cons,
          Matrix.tail_cons] <;>
        first
          | exact hdz0
          | exact hdn1
          | exact le_of_eq hi0
          | exact le_of_eq hi1
  · intro p0 n0 z0 z1 hp hn hz
    rw [split_caseF _ _ _ _ _ _ _ hp hn hz]
    have hp0 : 0 < planeDists (nv, d) t p0 := mem_posList.mp (by rw [hp]; simp)
    have hn0 : planeDists (nv, d) t n0 < 0 := mem_negList.mp (by rw [hn]; simp)
    have hi0 := dot_intPoint nv d t p0 n0 hp0 hn0
    refine ⟨?_, by simp⟩
    intro T hT i
    simp only [List.nil_append, List.mem_singleton] at hT
    subst hT
    by_cases h0 : i = p0
    · subst h0
      rw [Function.update_same]
      exact le_of_eq hi0
    rw [Function.update_noteq h0]
    exact dist_nonpos_dot (not_pos_nonpos (by rw [hp]; simp [h0]))

/-- C10: every vertex of every tetrahedron appended by `splitAndDecompose`
lies in the closed half-space `dot x n ≤ d` (retained vertices have
non-positive signed distance; created vertices lie exactly on the plane),
and at most three tetrahedra are appended per call. -/
theorem C10_halfspace_invariant (nv : Vec3) (d : ℚ) (t : Tetrahedron) :
    (∀ T ∈ splitAndDecompose (nv, d) t [], ∀ i : Fin 4, dot (T i) nv ≤ d)
    ∧ ∀ buf : List Tetrahedron,
        (splitAndDecompose (nv, d) t buf).length ≤ buf.length + 3 := by
  have h := split_halfspace_aux nv d t
  refine ⟨h.1, fun buf => ?_⟩
  rw [split_append, List.length_append]
  have := h.2
  omega

/-! ## decomposeCell in closed form -/

theorem update01_eq (g : Tetrahedron) (a b : Vec3) :
    Function.update (Function.update g 0 a) 1 b = ![a, b, g 2, g 3] := by
  funext i
  fin_cases i <;> simp [Function.update]

theorem update012_eq (g : Tetrahedron) (a b c : Vec3) :
    Function.update (Function.update (Function.update g 0 a) 1 b) 2 c
      = ![a, b, c, g 3] := by
  funext i
  fin_cases i <;> simp [Function.update]

/-- The tetrahedra emitted for one face of a non-tetrahedral cell: the
triangle fast path or the face-centroid fan, as在 the claim. -/
def faceTets (points : pointField) (xC xT : Vec3) (f : List Nat) :
    List Tetrahedron :=
  if f.length = 3 then
    [![points (f.getD 0 0) - xT, points (f.getD 1 0) - xT,
       points (f.getD 2 0) - xT, xC - xT]]
  else
    (List.range f.length).map fun pI =>
      ![points (f.getD pI 0) - xT, points (nextLabel f pI) - xT,
        faceCentre points f - xT, xC - xT]

theorem fanFold (points : pointField) (xT : Vec3) (f : List Nat)
    (idxs : List Nat) (tmp : Tetrahedron) (acc : List Tetrahedron) :
    (idxs.foldl (fun (st2 : Tetrahedron × List Tetrahedron) pI =>
        let tt := Function.update (Function.update st2.1
          0 (points (f.getD pI 0) - xT)) 1 (points (nextLabel f pI) - xT)
        (tt, st2.2 ++ [tt])) (tmp, acc)).2
      = acc ++ idxs.map (fun pI =>
          ![points (f.getD pI 0) - xT, points (nextLabel f pI) - xT,
            tmp 2, tmp 3])
    ∧ (idxs.foldl (fun (st2 : Tetrahedron × List Tetrahedron) pI =>
        let tt := Function.update (Function.update st2.1
          0 (points (f.getD pI 0) - xT)) 1 (points (nextLabel f pI) - xT)
        (tt, st2.2 ++ [tt])) (tmp, acc)).1 2 = tmp 2
    ∧ (idxs.foldl (fun (st2 : Tetrahedron × List Tetrahedron) pI =>
        let tt := Function.update (Function.update st2.1
          0 (points (f.getD pI 0) - xT)) 1 (points (nextLabel f pI) - xT)
        (tt, st2.2 ++ [tt])) (tmp, acc)).1 3 = tmp 3 := by
  induction idxs generalizing tmp acc with
  | nil => simp
  | cons pI rest ih =>
    simp only [List.foldl_cons, List.map_cons]
    rw [update01_eq]
    have h := ih ![points (f.getD pI 0) - xT, points (nextLabel f pI) - xT,
      tmp 2, tmp 3] (acc ++ [![points (f.getD pI 0) - xT,
        points (nextLabel f pI) - xT, tmp 2, tmp 3]])
    refine ⟨?_, ?_, ?_⟩
    · rw [h.1]
      simp
    · rw [h.2.1]
      simp
    · rw [h.2.2]
      simp

theorem cellFold (faces : List (List Nat)) (points : pointField) (xC xT : Vec3)
    (cl : List Nat) :
    ∀ st : Tetrahedron × List Tetrahedron, st.1 3 = xC - xT →
    (cl.foldl
      (fun (st : Tetrahedron × List Tetrahedron) fI =>
        let checkFace := faces.getD fI []
        if checkFace.length = 3 then
          let tt := Function.update (Function.update (Function.update st.1
            0 (points (checkFace.getD 0 0) - xT))
            1 (points (checkFace.getD 1 0) - xT))
            2 (points (checkFace.getD 2 0) - xT)
          (tt, st.2 ++ [tt])
        else
          let tc := Function.update st.1 2 (faceCentre points checkFace - xT)
          (List.range checkFace.length).foldl
            (fun (st2 : Tetrahedron × List Tetrahedron) pI =>
              let tt := Function.update (Function.update st2.1
                0 (points (checkFace.getD pI 0) - xT))
                1 (points (nextLabel checkFace pI) - xT)
              (tt, st2.2 ++ [tt]))
            (tc, st.2))
      st).2
      = st.2 ++ cl.flatMap (fun fI => faceTets points xC xT (faces.getD fI [])) := by
  induction cl with
  | nil =>
    intro st h3
    simp
  | cons fI rest ih =>
    intro st h3
    simp only [List.foldl_cons, List.flatMap_cons]
    by_cases htri : (faces.getD fI []).length = 3
    · simp only [htri, if_true]
      rw [update012_eq, h3]
      rw [ih (![points ((faces.getD fI []).getD 0 0) - xT,
        points ((faces.getD fI []).getD 1 0) - xT,
        points ((faces.getD fI []).getD 2 0) - xT, xC - xT],
        st.2 ++ [![points ((faces.getD fI []).getD 0 0) - xT,
          points ((faces.getD fI []).getD 1 0) - xT,
          points ((faces.getD fI []).getD 2 0) - xT, xC - xT]]) (by simp)]
      have hface : faceTets points xC xT (faces.getD fI [])
          = [![points ((faces.getD fI []).getD 0 0) - xT,
              points ((faces.getD fI []).getD 1 0) - xT,
              points ((faces.getD fI []).getD 2 0) - xT, xC - xT]] := by
        simp only [faceTets]
        rw [if_pos htri]
      rw [hface]
      simp only [List.append_assoc, List.singleton_append]
    · simp only [htri, if_false]
      have hfan := fanFold points xT (faces.getD fI [])
        (List.range (faces.getD fI []).length)
        (Function.update st.1 2 (faceCentre points (faces.getD fI []) - xT)) st.2
      have h2c : (Function.update st.1 2
          (faceCentre points (faces.getD fI []) - xT)) 2
          = faceCentre points (faces.getD fI []) - xT :=
        Function.update_same _ _ _
      have h3c : (Function.update st.1 2
          (faceCentre points (faces.getD fI []) - xT)) 3 = xC - xT := by
        rw [Function.update_noteq (by decide)]
        exact h3
      obtain ⟨hout, hk2, hk3⟩ := hfan
      rw [h2c, h3c] at hout
      rw [h3c] at hk3
      rw [ih _ hk3, hout]
      have hface : faceTets points xC xT (faces.getD fI [])
          = (List.range (faces.getD fI []).length).map fun pI =>
              ![points ((faces.getD fI []).getD pI 0) - xT,
                points (nextLabel (faces.getD fI []) pI) - xT,
                faceCentre points (faces.getD fI []) - xT, xC - xT] := by
        simp only [faceTets]
        rw [if_neg htri]
      rw [hface, List.append_assoc]

theorem decomposeCell_fan (mesh : polyMesh) (points : pointField)
    (cellIndex : Nat) (xC : Vec3) (buf : List Tetrahedron) (xT : Vec3)
    (h4 : (mesh.cells.getD cellIndex []).length ≠ 4) :
    decomposeCell mesh points cellIndex xC buf xT
      = (mesh.cells.getD cellIndex []).flatMap
          (fun fI => faceTets points xC xT (mesh.faces.getD fI [])) := by
  simp only [decomposeCell]
  rw [if_neg h4]
  have h := cellFold mesh.faces points xC xT (mesh.cells.getD cellIndex [])
    (Function.update (fun _ => 0) 3 (xC - xT), ([] : List Tetrahedron))
    (by simp)
  rw [h]
  simp

theorem decomposeCell_tet (mesh : polyMesh) (points : pointField)
    (cellIndex : Nat) (xC : Vec3) (buf : List Tetrahedron) (xT : Vec3)
    (h4 : (mesh.cells.getD cellIndex []).length = 4) :
    decomposeCell mesh points cellIndex xC buf xT
      = [![points ((mesh.faces.getD ((mesh.cells.getD cellIndex []).getD 0 0) []).getD 0 0) - xT,
          points ((mesh.faces.getD ((mesh.cells.getD cellIndex []).getD 0 0) []).getD 1 0) - xT,
          points ((mesh.faces.getD ((mesh.cells.getD cellIndex []).getD 0 0) []).getD 2 0) - xT,
          match (mesh.faces.getD ((mesh.cells.getD cellIndex []).getD 1 0) []).find?
              (fun p =>
                p != (mesh.faces.getD ((mesh.cells.getD cellIndex []).getD 0 0) []).getD 0 0 &&
                p != (mesh.faces.getD ((mesh.cells.getD cellIndex []).getD 0 0) []).getD 1 0 &&
                p != (mesh.faces.getD ((mesh.cells.getD cellIndex []).getD 0 0) []).getD 2 0) with
          | some p => points p - xT
          | none => 0]] := by
  simp only [decomposeCell]
  rw [if_pos h4]

theorem find?_unique {p : Nat → Bool} {l : List Nat} {v : Nat}
    (hmem : v ∈ l) (hv : p v = true) (huniq : ∀ u ∈ l, p u = true → u = v) :
    l.find? p = some v := by
  induction l with
  | nil => cases hmem
  | cons a tl ih =>
    by_cases ha : p a = true
    · have hav : a = v := huniq a (by simp) ha
      subst hav
      exact List.find?_cons_of_pos tl ha
    · rw [List.find?_cons_of_neg tl ha]
      have hvtl : v ∈ tl := by
        rcases List.mem_cons.mp hmem with h | h
        · exact absurd (h ▸ hv) ha
        · exact h
      exact ih hvtl (fun u hu hpu => huniq u (List.mem_cons_of_mem a hu) hpu)

/-- C7: for a cell whose face count is not 4, `decomposeCell` emits, face by
face in order, the triangle tetrahedron `(v0, v1, v2, xC)` or the
face-centroid fan `(v_i, v_{i+1 mod k}, faceCentre, xC)` per edge, all
vertices translated by `-xT` (see `faceTets`). -/
theorem C7_general_fan (mesh : polyMesh) (points : pointField)
    (cellIndex : Nat) (xC : Vec3) (buf : List Tetrahedron) (xT : Vec3)
    (h4 : (mesh.cells.getD cellIndex []).length ≠ 4) :
    decomposeCell mesh points cellIndex xC buf xT
      = (mesh.cells.getD cellIndex []).flatMap
          (fun fI => faceTets points xC xT (mesh.faces.getD fI [])) :=
  decomposeCell_fan mesh points cellIndex xC buf xT h4

/-- C6: for a well-formed cell with exactly 4 faces, `decomposeCell` emits
exactly one tetrahedron: the first three vertices of the first face in face
order, and the unique vertex of the second face not among those three, each
translated by `-xT`; the centroid estimate `xC` plays no role. -/
theorem C6_tet_fast_path (mesh : polyMesh) (points : pointField)
    (cellIndex : Nat) (xC : Vec3) (buf : List Tetrahedron) (xT : Vec3) (v : Nat)
    (h4 : (mesh.cells.getD cellIndex []).length = 4)
    (hmem : v ∈ mesh.faces.getD ((mesh.cells.getD cellIndex []).getD 1 0) [])
    (hv0 : v ≠ (mesh.faces.getD ((mesh.cells.getD cellIndex []).getD 0 0) []).getD 0 0)
    (hv1 : v ≠ (mesh.faces.getD ((mesh.cells.getD cellIndex []).getD 0 0) []).getD 1 0)
    (hv2 : v ≠ (mesh.faces.getD ((mesh.cells.getD cellIndex []).getD 0 0) []).getD 2 0)
    (huniq : ∀ u ∈ mesh.faces.getD ((mesh.cells.getD cellIndex []).getD 1 0) [],
      u ≠ (mesh.faces.getD ((mesh.cells.getD cellIndex []).getD 0 0) []).getD 0 0 →
      u ≠ (mesh.faces.getD ((mesh.cells.getD cellIndex []).getD 0 0) []).getD 1 0 →
      u ≠ (mesh.faces.getD ((mesh.cells.getD cellIndex []).getD 0 0) []).getD 2 0 →
      u = v) :
    decomposeCell mesh points cellIndex xC buf xT
      = [![points ((mesh.faces.getD ((mesh.cells.getD cellIndex []).getD 0 0) []).getD 0 0) - xT,
          points ((mesh.faces.getD ((mesh.cells.getD cellIndex []).getD 0 0) []).getD 1 0) - xT,
          points ((mesh.faces.getD ((mesh.cells.getD cellIndex []).getD 0 0) []).getD 2 0) - xT,
          points v - xT]]
    ∧ decomposeCell mesh points cellIndex xC buf xT
        = decomposeCell mesh points cellIndex (0 : Vec3) buf xT := by
  have hfind : (mesh.faces.getD ((mesh.cells.getD cellIndex []).getD 1 0) []).find?
      (fun p =>
        p != (mesh.faces.getD ((mesh.cells.getD cellIndex []).getD 0 0) []).getD 0 0 &&
        p != (mesh.faces.getD ((mesh.cells.getD cellIndex []).getD 0 0) []).getD 1 0 &&
        p != (mesh.faces.getD ((mesh.cells.getD cellIndex []).getD 0 0) []).getD 2 0)
      = some v := by
    refine find?_unique hmem ?_ ?_
    · simp only [Bool.and_eq_true, bne_iff_ne]
      exact ⟨⟨hv0, hv1⟩, hv2⟩
    · intro u hu hpu
      simp only [Bool.and_eq_true, bne_iff_ne] at hpu
      exact huniq u hu hpu.1.1 hpu.1.2 hpu.2
  constructor
  · rw [decomposeCell_tet mesh points cellIndex xC buf xT h4, hfind]
  · rw [decomposeCell_tet mesh points cellIndex xC buf xT h4,
      decomposeCell_tet mesh points cellIndex (0 : Vec3) buf xT h4]

/-! ## Translation behaviour of decomposeCell -/

/-- Shifting every vertex of a tetrahedron by `-xT`. -/
def shiftTet (xT : Vec3) (T : Tetrahedron) : Tetrahedron := fun i => T i - xT

theorem tetVol_shift (xT : Vec3) (T : Tetrahedron) :
    tetVol (shiftTet xT T) = tetVol T := by
  refine congrArg abs ?_
  simp [sv, dot, cross, shiftTet]
  try ring

theorem tetCentroid_shift (xT : Vec3) (T : Tetrahedron) :
    tetCentroid (shiftTet xT T) = tetCentroid T - xT := by
  ext <;> (simp [tetCentroid, shiftTet]; try ring)

theorem faceTets_shift (points : pointField) (xC xT : Vec3) (f : List Nat) :
    faceTets points xC xT f = (faceTets points xC 0 f).map (shiftTet xT) := by
  unfold faceTets
  by_cases h : f.length = 3
  · rw [if_pos h, if_pos h]
    simp only [List.map_cons, List.map_nil]
    congr 1
    funext i
    fin_cases i <;> simp [shiftTet]
  · rw [if_neg h, if_neg h, List.map_map]
    refine List.map_congr_left ?_
    intro pI _
    funext i
    fin_cases i <;> simp [shiftTet]

theorem weighted_shift_sum (L : List Tetrahedron) (xT : Vec3) :
    (L.map (fun T => tetVol T • (tetCentroid T - xT))).sum
      = (L.map fun T => tetVol T • tetCentroid T).sum
        - ((L.map tetVol).sum) • xT := by
  induction L with
  | nil => simp
  | cons T L ih =>
    rw [List.map_cons, List.map_cons, List.map_cons, List.sum_cons,
      List.sum_cons, List.sum_cons, ih, smul_sub, add_smul]
    abel

theorem decomposeCell_shift (mesh : polyMesh) (points : pointField)
    (cellIndex : Nat) (xC : Vec3) (buf : List Tetrahedron) (xT : Vec3)
    (hWF : (mesh.cells.getD cellIndex []).length = 4 →
      ∃ u ∈ mesh.faces.getD ((mesh.cells.getD cellIndex []).getD 1 0) [],
        u ≠ (mesh.faces.getD ((mesh.cells.getD cellIndex []).getD 0 0) []).getD 0 0
        ∧ u ≠ (mesh.faces.getD ((mesh.cells.getD cellIndex []).getD 0 0) []).getD 1 0
        ∧ u ≠ (mesh.faces.getD ((mesh.cells.getD cellIndex []).getD 0 0) []).getD 2 0) :
    decomposeCell mesh points cellIndex xC buf xT
      = (decomposeCell mesh points cellIndex xC buf 0).map (shiftTet xT) := by
  by_cases h4 : (mesh.cells.getD cellIndex []).length = 4
  · obtain ⟨v, hmem, hv0, hv1, hv2⟩ := hWF h4
    rcases hfind : (mesh.faces.getD ((mesh.cells.getD cellIndex []).getD 1 0) []).find?
        (fun p =>
          p != (mesh.faces.getD ((mesh.cells.getD cellIndex []).getD 0 0) []).getD 0 0 &&
          p != (mesh.faces.getD ((mesh.cells.getD cellIndex []).getD 0 0) []).getD 1 0 &&
          p != (mesh.faces.getD ((mesh.cells.getD cellIndex []).getD 0 0) []).getD 2 0)
      with _ | w
    · exfalso
      have := List.find?_eq_none.mp hfind v hmem
      simp only [Bool.and_eq_true, bne_iff_ne] at this
      exact this ⟨⟨hv0, hv1⟩, hv2⟩
    · rw [decomposeCell_tet mesh points cellIndex xC buf xT h4, hfind,
        decomposeCell_tet mesh points cellIndex xC buf (0 : Vec3) h4, hfind]
      simp only [List.map_cons, List.map_nil]
      congr 1
      funext i
      fin_cases i <;> simp [shiftTet]
  · rw [decomposeCell_fan mesh points cellIndex xC buf xT h4,
      decomposeCell_fan mesh points cellIndex xC buf (0 : Vec3) h4,
      List.map_flatMap]
    refine List.flatMap_congr ?_  -- congruence over the face list
    intro fI _
    exact faceTets_shift points xC xT (mesh.faces.getD fI [])

/-- C8 (amended): for any cell that is well-formed in the four-face case (the
second face has a vertex outside the first three of the first face), the tet
list produced with origin `xT` is the `xT = 0` list with every vertex shifted
by `-xT`; the aggregated volume is unchanged; the aggregated centroid shifts
by `-(V / (V + VSMALL)) • xT` — exactly `-xT` only in the limit of a vanishing
`VSMALL` floor. -/
theorem C8_translation_invariance (mesh : polyMesh) (points : pointField)
    (cellIndex : Nat) (xC : Vec3) (buf : List Tetrahedron) (xT : Vec3)
    (hWF : (mesh.cells.getD cellIndex []).length = 4 →
      ∃ u ∈ mesh.faces.getD ((mesh.cells.getD cellIndex []).getD 1 0) [],
        u ≠ (mesh.faces.getD ((mesh.cells.getD cellIndex []).getD 0 0) []).getD 0 0
        ∧ u ≠ (mesh.faces.getD ((mesh.cells.getD cellIndex []).getD 0 0) []).getD 1 0
        ∧ u ≠ (mesh.faces.getD ((mesh.cells.getD cellIndex []).getD 0 0) []).getD 2 0) :
    decomposeCell mesh points cellIndex xC buf xT
      = (decomposeCell mesh points cellIndex xC buf 0).map (shiftTet xT)
    ∧ (getVolumeAndCentre (decomposeCell mesh points cellIndex xC buf xT)).1
        = (getVolumeAndCentre (decomposeCell mesh points cellIndex xC buf 0)).1
    ∧ (getVolumeAndCentre (decomposeCell mesh points cellIndex xC buf xT)).2
        = (getVolumeAndCentre (decomposeCell mesh points cellIndex xC buf 0)).2
          - ((getVolumeAndCentre (decomposeCell mesh points cellIndex xC buf 0)).1
              / ((getVolumeAndCentre (decomposeCell mesh points cellIndex xC buf 0)).1
                  + VSMALL)) • xT := by
  have h1 := decomposeCell_shift mesh points cellIndex xC buf xT hWF
  have emap1 : ((decomposeCell mesh points cellIndex xC buf 0).map
      (shiftTet xT)).map tetVol
      = (decomposeCell mesh points cellIndex xC buf 0).map tetVol := by
    rw [List.map_map]
    refine List.map_congr_left ?_
    intro T _
    exact tetVol_shift xT T
  have emap2 : ((decomposeCell mesh points cellIndex xC buf 0).map
      (shiftTet xT)).map (fun T => tetVol T • tetCentroid T)
      = (decomposeCell mesh points cellIndex xC buf 0).map
          (fun T => tetVol T • (tetCentroid T - xT)) := by
    rw [List.map_map]
    refine List.map_congr_left ?_
    intro T _
    simp only [Function.comp_apply]
    rw [tetVol_shift, tetCentroid_shift]
  refine ⟨h1, ?_, ?_⟩
  · rw [h1, getVolumeAndCentre_fst, getVolumeAndCentre_fst, emap1]
  · rw [h1, getVolumeAndCentre_snd, getVolumeAndCentre_snd, emap1, emap2,
      weighted_shift_sum, smul_sub, smul_smul]
    congr 1
    rw [div_eq_mul_inv, mul_comm, getVolumeAndCentre_fst]

/-- C8 counterexample: a one-face cell decomposed with origin `xT = (1,0,0)`.
The aggregated centroid does not shift by exactly `-xT`, because
`getVolumeAndCentre` divides by `V + VSMALL` rather than `V`. -/
theorem C8_counterexample :
    ¬ ((getVolumeAndCentre (decomposeCell (polyMesh.mk [[0, 1, 2]] [[0]])
          (fun n => if n = 0 then Vec3.mk 0 0 0
            else if n = 1 then Vec3.mk 1 0 0 else Vec3.mk 0 1 0)
          0 (Vec3.mk 0 0 1) [] (Vec3.mk 1 0 0))).2
        = (getVolumeAndCentre (decomposeCell (polyMesh.mk [[0, 1, 2]] [[0]])
            (fun n => if n = 0 then Vec3.mk 0 0 0
              else if n = 1 then Vec3.mk 1 0 0 else Vec3.mk 0 1 0)
            0 (Vec3.mk 0 0 1) [] 0)).2 - Vec3.mk 1 0 0) := by
  have h4 : ((polyMesh.mk [[0, 1, 2]] [[0]]).cells.getD 0 []).length ≠ 4 := by
    decide
  have hface : faceTets (fun n => if n = 0 then Vec3.mk 0 0 0
      else if n = 1 then Vec3.mk 1 0 0 else Vec3.mk 0 1 0)
      (Vec3.mk 0 0 1) (Vec3.mk 1 0 0) [0, 1, 2]
      = [![Vec3.mk 0 0 0 - Vec3.mk 1 0 0, Vec3.mk 1 0 0 - Vec3.mk 1 0 0,
           Vec3.mk 0 1 0 - Vec3.mk 1 0 0, Vec3.mk 0 0 1 - Vec3.mk 1 0 0]] := rfl
  have hface0 : faceTets (fun n => if n = 0 then Vec3.mk 0 0 0
      else if n = 1 then Vec3.mk 1 0 0 else Vec3.mk 0 1 0)
      (Vec3.mk 0 0 1) (0 : Vec3) [0, 1, 2]
      = [![Vec3.mk 0 0 0 - 0, Vec3.mk 1 0 0 - 0,
           Vec3.mk 0 1 0 - 0, Vec3.mk 0 0 1 - 0]] := rfl
  have hLx : decomposeCell (polyMesh.mk [[0, 1, 2]] [[0]])
      (fun n => if n = 0 then Vec3.mk 0 0 0
        else if n = 1 then Vec3.mk 1 0 0 else Vec3.mk 0 1 0)
      0 (Vec3.mk 0 0 1) [] (Vec3.mk 1 0 0)
      = [![Vec3.mk 0 0 0 - Vec3.mk 1 0 0, Vec3.mk 1 0 0 - Vec3.mk 1 0 0,
           Vec3.mk 0 1 0 - Vec3.mk 1 0 0, Vec3.mk 0 0 1 - Vec3.mk 1 0 0]] := by
    rw [decomposeCell_fan _ _ _ _ _ _ h4]
    simpa using hface
  have hL0 : decomposeCell (polyMesh.mk [[0, 1, 2]] [[0]])
      (fun n => if n = 0 then Vec3.mk 0 0 0
        else if n = 1 then Vec3.mk 1 0 0 else Vec3.mk 0 1 0)
      0 (Vec3.mk 0 0 1) [] 0
      = [![Vec3.mk 0 0 0 - 0, Vec3.mk 1 0 0 - 0,
           Vec3.mk 0 1 0 - 0, Vec3.mk 0 0 1 - 0]] := by
    rw [decomposeCell_fan _ _ _ _ _ _ h4]
    simpa using hface0
  have hsvx : sv ![Vec3.mk 0 0 0 - Vec3.mk 1 0 0, Vec3.mk 1 0 0 - Vec3.mk 1 0 0,
      Vec3.mk 0 1 0 - Vec3.mk 1 0 0, Vec3.mk 0 0 1 - Vec3.mk 1 0 0]
      = 1 / 6 := by
    simp [sv, dot, cross]
    try norm_num
  have hsv0 : sv ![Vec3.mk 0 0 0 - 0, Vec3.mk 1 0 0 - 0,
      Vec3.mk 0 1 0 - 0, Vec3.mk 0 0 1 - 0] = 1 / 6 := by
    simp [sv, dot, cross]
    try norm_num
  have hvx : tetVol ![Vec3.mk 0 0 0 - Vec3.mk 1 0 0, Vec3.mk 1 0 0 - Vec3.mk 1 0 0,
      Vec3.mk 0 1 0 - Vec3.mk 1 0 0, Vec3.mk 0 0 1 - Vec3.mk 1 0 0] = 1 / 6 := by
    rw [tetVol, hsvx]
    norm_num
  have hv0 : tetVol ![Vec3.mk 0 0 0 - 0, Vec3.mk 1 0 0 - 0,
      Vec3.mk 0 1 0 - 0, Vec3.mk 0 0 1 - 0] = 1 / 6 := by
    rw [tetVol, hsv0]
    norm_num
  have hcx : (tetCentroid ![Vec3.mk 0 0 0 - Vec3.mk 1 0 0,
      Vec3.mk 1 0 0 - Vec3.mk 1 0 0, Vec3.mk 0 1 0 - Vec3.mk 1 0 0,
      Vec3.mk 0 0 1 - Vec3.mk 1 0 0]).x = -3 / 4 := by
    simp [tetCentroid]
    try norm_num
  have hc0 : (tetCentroid ![Vec3.mk 0 0 0 - 0, Vec3.mk 1 0 0 - 0,
      Vec3.mk 0 1 0 - 0, Vec3.mk 0 0 1 - 0]).x = 1 / 4 := by
    simp [tetCentroid]
    try norm_num
  intro h
  rw [hLx, hL0, getVolumeAndCentre_snd, getVolumeAndCentre_snd] at h
  simp only [List.map_cons, List.map_nil, List.sum_cons, List.sum_nil,
    add_zero] at h
  rw [hvx, hv0] at h
  have hx := congrArg Vec3.x h
  simp only [Vec3.smul_x, Vec3.sub_x] at hx
  rw [hcx, hc0] at hx
  norm_num [VSMALL] at hx

/-- C8 witness: the same single-face cell; the hypothesis is vacuous since the
cell has one face, and the theorem instance gives the shifted list, equal
volume and the exact centroid shift. -/
theorem C8_translation_invariance_witness :
    decomposeCell (polyMesh.mk [[0, 1, 2]] [[0]])
        (fun n => if n = 0 then Vec3.mk 0 0 0
          else if n = 1 then Vec3.mk 1 0 0 else Vec3.mk 0 1 0)
        0 (Vec3.mk 0 0 1) [] (Vec3.mk 1 0 0)
      = (decomposeCell (polyMesh.mk [[0, 1, 2]] [[0]])
          (fun n => if n = 0 then Vec3.mk 0 0 0
            else if n = 1 then Vec3.mk 1 0 0 else Vec3.mk 0 1 0)
          0 (Vec3.mk 0 0 1) [] 0).map (shiftTet (Vec3.mk 1 0 0))
    ∧ (getVolumeAndCentre (decomposeCell (polyMesh.mk [[0, 1, 2]] [[0]])
        (fun n => if n = 0 then Vec3.mk 0 0 0
          else if n = 1 then Vec3.mk 1 0 0 else Vec3.mk 0 1 0)
        0 (Vec3.mk 0 0 1) [] (Vec3.mk 1 0 0))).1
      = (getVolumeAndCentre (decomposeCell (polyMesh.mk [[0, 1, 2]] [[0]])
          (fun n => if n = 0 then Vec3.mk 0 0 0
            else if n = 1 then Vec3.mk 1 0 0 else Vec3.mk 0 1 0)
          0 (Vec3.mk 0 0 1) [] 0)).1
    ∧ (getVolumeAndCentre (decomposeCell (polyMesh.mk [[0, 1, 2]] [[0]])
        (fun n => if n = 0 then Vec3.mk 0 0 0
          else if n = 1 then Vec3.mk 1 0 0 else Vec3.mk 0 1 0)
        0 (Vec3.mk 0 0 1) [] (Vec3.mk 1 0 0))).2
      = (getVolumeAndCentre (decomposeCell (polyMesh.mk [[0, 1, 2]] [[0]])
          (fun n => if n = 0 then Vec3.mk 0 0 0
            else if n = 1 then Vec3.mk 1 0 0 else Vec3.mk 0 1 0)
          0 (Vec3.mk 0 0 1) [] 0)).2
        - ((getVolumeAndCentre (decomposeCell (polyMesh.mk [[0, 1, 2]] [[0]])
            (fun n => if n = 0 then Vec3.mk 0 0 0
              else if n = 1 then Vec3.mk 1 0 0 else Vec3.mk 0 1 0)
            0 (Vec3.mk 0 0 1) [] 0)).1
            / ((getVolumeAndCentre (decomposeCell (polyMesh.mk [[0, 1, 2]] [[0]])
                (fun n => if n = 0 then Vec3.mk 0 0 0
                  else if n = 1 then Vec3.mk 1 0 0 else Vec3.mk 0 1 0)
                0 (Vec3.mk 0 0 1) [] 0)).1 + VSMALL)) • Vec3.mk 1 0 0 :=
  C8_translation_invariance (polyMesh.mk [[0, 1, 2]] [[0]])
    (fun n => if n = 0 then Vec3.mk 0 0 0
      else if n = 1 then Vec3.mk 1 0 0 else Vec3.mk 0 1 0)
    0 (Vec3.mk 0 0 1) [] (Vec3.mk 1 0 0)
    (fun h => absurd h (by decide))

/-- C1 witness: the unit tetrahedron bisected by the plane `x = 1/2`
(written with integer data as `2x = 1`): the two clipped volumes sum to the
tetrahedron volume. -/
theorem C1_clipper_conservation_witness :
    Vec3.mk 2 0 0 ≠ (0 : Vec3)
    ∧ (getVolumeAndCentre (splitAndDecompose (Vec3.mk 2 0 0, (1 : ℚ))
        ![Vec3.mk 0 0 0, Vec3.mk 1 0 0, Vec3.mk 0 1 0, Vec3.mk 0 0 1] [])).1
      + (getVolumeAndCentre (splitAndDecompose (-Vec3.mk 2 0 0, -(1 : ℚ))
          ![Vec3.mk 0 0 0, Vec3.mk 1 0 0, Vec3.mk 0 1 0, Vec3.mk 0 0 1] [])).1
      = (getVolumeAndCentre
          [(![Vec3.mk 0 0 0, Vec3.mk 1 0 0, Vec3.mk 0 1 0, Vec3.mk 0 0 1] :
            Tetrahedron)]).1 :=
  have hne : Vec3.mk 2 0 0 ≠ (0 : Vec3) := fun h =>
    absurd (congrArg Vec3.x h) (by norm_num)
  ⟨hne, C1_clipper_conservation (Vec3.mk 2 0 0) 1
    ![Vec3.mk 0 0 0, Vec3.mk 1 0 0, Vec3.mk 0 1 0, Vec3.mk 0 0 1] hne⟩

/-- C6 witness: a pure tetrahedral cell with faces
`[0,1,2], [0,1,3], [1,2,3], [0,2,3]` over concrete points; vertex 3 is the
isolated vertex of the second face. -/
theorem C6_tet_fast_path_witness :
    decomposeCell (polyMesh.mk [[0, 1, 2], [0, 1, 3], [1, 2, 3], [0, 2, 3]]
        [[0, 1, 2, 3]])
        (fun n => if n = 0 then Vec3.mk 0 0 0 else if n = 1 then Vec3.mk 1 0 0
          else if n = 2 then Vec3.mk 0 1 0 else Vec3.mk 0 0 1)
        0 (Vec3.mk 2 2 2) [] (Vec3.mk 1 0 0)
      = [![Vec3.mk 0 0 0 - Vec3.mk 1 0 0, Vec3.mk 1 0 0 - Vec3.mk 1 0 0,
           Vec3.mk 0 1 0 - Vec3.mk 1 0 0, Vec3.mk 0 0 1 - Vec3.mk 1 0 0]]
    ∧ decomposeCell (polyMesh.mk [[0, 1, 2], [0, 1, 3], [1, 2, 3], [0, 2, 3]]
        [[0, 1, 2, 3]])
        (fun n => if n = 0 then Vec3.mk 0 0 0 else if n = 1 then Vec3.mk 1 0 0
          else if n = 2 then Vec3.mk 0 1 0 else Vec3.mk 0 0 1)
        0 (Vec3.mk 2 2 2) [] (Vec3.mk 1 0 0)
      = decomposeCell (polyMesh.mk [[0, 1, 2], [0, 1, 3], [1, 2, 3], [0, 2, 3]]
        [[0, 1, 2, 3]])
        (fun n => if n = 0 then Vec3.mk 0 0 0 else if n = 1 then Vec3.mk 1 0 0
          else if n = 2 then Vec3.mk 0 1 0 else Vec3.mk 0 0 1)
        0 (0 : Vec3) [] (Vec3.mk 1 0 0) :=
  C6_tet_fast_path
    (polyMesh.mk [[0, 1, 2], [0, 1, 3], [1, 2, 3], [0, 2, 3]] [[0, 1, 2, 3]])
    (fun n => if n = 0 then Vec3.mk 0 0 0 else if n = 1 then Vec3.mk 1 0 0
      else if n = 2 then Vec3.mk 0 1 0 else Vec3.mk 0 0 1)
    0 (Vec3.mk 2 2 2) [] (Vec3.mk 1 0 0) 3 (by decide) (by decide) (by decide)
    (by decide) (by decide) (by decide)

/-- C7 witness: a single-face cell (face count 1, not 4) decomposes into the
face fan of its one triangular face, at concrete points. -/
theorem C7_general_fan_witness :
    decomposeCell (polyMesh.mk [[0, 1, 2]] [[0]])
        (fun n => if n = 0 then Vec3.mk 0 0 0
          else if n = 1 then Vec3.mk 1 0 0 else Vec3.mk 0 1 0)
        0 (Vec3.mk 0 0 1) [] (Vec3.mk 1 0 0)
      = (((polyMesh.mk [[0, 1, 2]] [[0]]).cells.getD 0 []).flatMap
          (fun fI => faceTets
            (fun n => if n = 0 then Vec3.mk 0 0 0
              else if n = 1 then Vec3.mk 1 0 0 else Vec3.mk 0 1 0)
            (Vec3.mk 0 0 1) (Vec3.mk 1 0 0)
            ((polyMesh.mk [[0, 1, 2]] [[0]]).faces.getD fI []))) :=
  C7_general_fan (polyMesh.mk [[0, 1, 2]] [[0]])
    (fun n => if n = 0 then Vec3.mk 0 0 0
      else if n = 1 then Vec3.mk 1 0 0 else Vec3.mk 0 1 0)
    0 (Vec3.mk 0 0 1) [] (Vec3.mk 1 0 0) (by decide)

/-- C10 witness: a tetrahedron strictly below the plane `z = 1` is returned
whole; its first vertex satisfies the half-space inequality, and at most
three tetrahedra are appended over the empty buffer. -/
theorem C10_halfspace_invariant_witness :
    dot ((![Vec3.mk 0 0 0, Vec3.mk 1 0 0, Vec3.mk 0 1 0, Vec3.mk 0 0 (-1)] :
        Tetrahedron) 0) (Vec3.mk 0 0 1) ≤ (1 : ℚ)
    ∧ (splitAndDecompose (Vec3.mk 0 0 1, (1 : ℚ))
        ![Vec3.mk 0 0 0, Vec3.mk 1 0 0, Vec3.mk 0 1 0, Vec3.mk 0 0 (-1)]
        []).length ≤ ([] : List Tetrahedron).length + 3 := by
  have hp : posList (Vec3.mk 0 0 1, (1 : ℚ))
      ![Vec3.mk 0 0 0, Vec3.mk 1 0 0, Vec3.mk 0 1 0, Vec3.mk 0 0 (-1)] = [] := by
    norm_num [posList, planeDists, dot, finRange_four, List.filter]
  have hn : negList (Vec3.mk 0 0 1, (1 : ℚ))
      ![Vec3.mk 0 0 0, Vec3.mk 1 0 0, Vec3.mk 0 1 0, Vec3.mk 0 0 (-1)]
      = [0, 1, 2, 3] := by
    norm_num [negList, planeDists, dot, finRange_four, List.filter]
    decide
  have hsplit : splitAndDecompose (Vec3.mk 0 0 1, (1 : ℚ))
      ![Vec3.mk 0 0 0, Vec3.mk 1 0 0, Vec3.mk 0 1 0, Vec3.mk 0 0 (-1)] []
      = [![Vec3.mk 0 0 0, Vec3.mk 1 0 0, Vec3.mk 0 1 0, Vec3.mk 0 0 (-1)]] := by
    have := split_posEmpty (Vec3.mk 0 0 1, (1 : ℚ))
      ![Vec3.mk 0 0 0, Vec3.mk 1 0 0, Vec3.mk 0 1 0, Vec3.mk 0 0 (-1)] []
      (by rw [hn]; simp) hp
    simpa using this
  exact ⟨(C10_halfspace_invariant (Vec3.mk 0 0 1) 1
      ![Vec3.mk 0 0 0, Vec3.mk 1 0 0, Vec3.mk 0 1 0, Vec3.mk 0 0 (-1)]).1
      ![Vec3.mk 0 0 0, Vec3.mk 1 0 0, Vec3.mk 0 1 0, Vec3.mk 0 0 (-1)]
      (by rw [hsplit]; simp) 0,
    (C10_halfspace_invariant (Vec3.mk 0 0 1) 1
      ![Vec3.mk 0 0 0, Vec3.mk 1 0 0, Vec3.mk 0 1 0, Vec3.mk 0 0 (-1)]).2 []⟩
